import Mathlib

/-! PageTable: a paginated table with a windowed page selector.

Shallow embedding of `src/PageTable/PageTable.cpp` (class `PageTable`).

* C++ `int` is modelled by `Int`; `/` on `int` is truncating division
  (`Int.tdiv`). Signed overflow is undefined behaviour in C++ and is not
  modelled. The one place where the Qt library casts to `uint`
  (`QList::mid`) is modelled with an explicit `% 2^32` (`4294967296`).
* `QList<QStringList>` is `List (List String)`.
* Of the widgets, only what the page logic reads or writes is kept: the
  texts of the page buttons, visibility and checkable flags, the text of the
  line edit and the sequence of emitted `currentPageChanged` signals.
* `QList::at` past the end is a fault; functions that can reach it return
  `Option`.
-/

namespace PageTable

/-- One row of the table (`QStringList`). -/
abbrev Row := List String

/-- Data operation kinds (`enum Operation` in `PageTable.h`). -/
inductive Operation
  | Append
  | Modify
  | Delete
  deriving DecidableEq, Repr

/-- The members of `PageTable` that the page logic reads or writes, together
with the observable widget state. The button group `m_BtnGroup` holds
`m_StartBtn`, `m_EndBtn` and then the body buttons, in this order; the texts
of the body buttons are `bodyBtnTexts`. -/
structure State where
  m_PageSize : Int
  m_CurrentPage : Int
  m_PageCount : Int
  m_PageBtnCount : Int
  m_MiddleBtnCount : Int
  m_Total : Int
  m_Data : List Row
  m_ShowPrevMore : Bool
  m_ShowNextMore : Bool
  /-- Text of `m_StartBtn`. -/
  startBtnText : Int
  /-- Text of `m_EndBtn`. -/
  endBtnText : Int
  /-- Texts of the buttons of `m_BtnGroup` other than `m_StartBtn` and `m_EndBtn`. -/
  bodyBtnTexts : List Int
  startBtnVisible : Bool
  endBtnVisible : Bool
  quickprevVisible : Bool
  quicknextVisible : Bool
  /-- Value of `m_PrevBtn->isCheckable()`: the prev control is enabled. -/
  prevCheckable : Bool
  /-- Value of `m_NextBtn->isCheckable()`: the next control is enabled. -/
  nextCheckable : Bool
  /-- Number shown in `m_PageLineEdit`. -/
  pageLineEditText : Int
  /-- Arguments of the `currentPageChanged` signals emitted so far, oldest first. -/
  emitted : List Int
  deriving DecidableEq, Repr

/-- Values taken by `i` in `for (int i = lo; i < hi; i++)`. -/
def forRange (lo hi : Int) : List Int :=
  (List.range (hi - lo).toNat).map (fun (k : Nat) => lo + (k : Int))

/-- Result of `m_BtnGroup->buttons().size()`. -/
def btnGroupSize (s : State) : Int :=
  (s.bodyBtnTexts.length : Int) + 2

/-- Result of `getButtons().count()`: the buttons of the group other than the
start and the end button. -/
def getButtonsCount (s : State) : Nat :=
  s.bodyBtnTexts.length

/-- The flags computed at the top of `updatePages` (lines 162-179). -/
def showPrevMoreOf (s : State) : Bool :=
  let pageBtnCount := s.m_PageBtnCount
  let halfPageBtnCount := (pageBtnCount - 1).tdiv 2
  decide (s.m_PageCount > pageBtnCount ∧ s.m_CurrentPage > pageBtnCount - halfPageBtnCount)

/-- The right "more" flag of `updatePages` (lines 176-179). -/
def showNextMoreOf (s : State) : Bool :=
  let pageBtnCount := s.m_PageBtnCount
  let halfPageBtnCount := (pageBtnCount - 1).tdiv 2
  let notLastToTheEnd := decide (btnGroupSize s - 2 ≠ s.m_PageCount - 1)
  decide (s.m_PageCount > s.m_MiddleBtnCount) && notLastToTheEnd &&
    decide (s.m_CurrentPage < s.m_PageCount - halfPageBtnCount)

/-- The list built by `updatePages` (lines 181-208). -/
def pagesArray (s : State) : List Int :=
  let pageBtnCount := s.m_PageBtnCount
  let currentPage := s.m_CurrentPage
  let pageCount := s.m_PageCount
  let showPrevMore := showPrevMoreOf s
  let showNextMore := showNextMoreOf s
  if showPrevMore && !showNextMore then
    let startPage := pageCount - (pageBtnCount - 2) + 1
    forRange startPage (pageCount + 1)
  else if !showPrevMore && showNextMore then
    (forRange 2 pageBtnCount).map (fun i => i - 1)
  else if showPrevMore && showNextMore then
    let offset := pageBtnCount.tdiv 2 - 1
    forRange (currentPage - offset) (currentPage + offset + 1)
  else
    (forRange 2 pageBtnCount).map
      (fun i => if s.m_PageCount ≤ s.m_MiddleBtnCount then i - 1 else i)

/-- Method `PageTable::updatePages` (lines 160-214): returns the page numbers
of the body buttons and stores the two "more" flags. -/
def updatePages (s : State) : List Int × State :=
  (pagesArray s,
    { s with m_ShowPrevMore := showPrevMoreOf s, m_ShowNextMore := showNextMoreOf s })

/-- One turn of the loop of `setCurrentPage` (lines 469-471):
`getButtons().at(k)->setText(QString("%1").arg(updatePages().at(k)))`.
`none` when `at(k)` is past the end of the list. -/
def setBtnText (st : State) (k : Nat) : Option State :=
  let r := updatePages st
  match r.1[k]? with
  | none => none
  | some v => some { r.2 with bodyBtnTexts := r.2.bodyBtnTexts.set k v }

/-- First statements of `setCurrentPage` (lines 465-466): the clamp of the
requested page into `m_CurrentPage` and the text of the line edit. -/
def storePage (page : Int) (s : State) : State :=
  { s with
    m_CurrentPage :=
      if page < 1 then 1 else if page > s.m_PageCount then s.m_PageCount else page
    pageLineEditText := page }

/-- Statements of `setCurrentPage` after the button loop (lines 473-513):
visibility of the ellipsis, first and last buttons, state of the prev and next
buttons, and the emitted signal. All of them test the argument `page`. -/
def finishPage (page : Int) (s : State) : State :=
  let isLastToTheEnd := decide (btnGroupSize s - 2 = s.m_PageCount - 1)
  { s with
    quickprevVisible := s.m_ShowPrevMore
    quicknextVisible := s.m_ShowNextMore
    endBtnVisible := s.m_ShowNextMore
    startBtnVisible := s.m_ShowPrevMore || isLastToTheEnd
    prevCheckable := if page = 1 then false else true
    nextCheckable := if page = s.m_PageCount then false else true
    emitted := s.emitted ++ [page] }

/-- Method `PageTable::setCurrentPage` (lines 461-515). The slot `loadTable`, which
the emitted signal runs, only repaints table cells and is not modelled. -/
def setCurrentPage (page : Int) (s : State) : Option State :=
  let s1 := storePage page s
  match (List.range (getButtonsCount s1)).foldlM setBtnText s1 with
  | none => none
  | some s2 => some (finishPage page s2)

/-- Method `PageTable::initialize` (lines 96-155). `none` when the page size is zero
(division by zero) or when `setCurrentPage` faults. -/
def initializeNav (s : State) : Option State :=
  if s.m_PageSize = 0 then none else
  let pageCount := (s.m_Total + s.m_PageSize - 1).tdiv s.m_PageSize
  let pageBtnCount :=
    if pageCount ≤ s.m_MiddleBtnCount then pageCount + 2 else s.m_MiddleBtnCount + 2
  let s1 : State :=
    { s with
      m_PageCount := pageCount
      m_PageBtnCount := pageBtnCount
      startBtnText := 1
      endBtnText := pageCount
      quickprevVisible := false
      bodyBtnTexts :=
        (forRange 2 pageBtnCount).map
          (fun i => if pageCount ≤ s.m_MiddleBtnCount then i - 1 else i) }
  setCurrentPage s1.m_CurrentPage s1

/-- The constructor `PageTable::PageTable` (lines 343-442). The members
`m_ShowPrevMore` and `m_ShowNextMore` are not initialised by the constructor;
their indeterminate values are the parameters `prev0` and `next0`. -/
def construct (data : List Row) (pageSize middleBtnCount : Int)
    (prev0 next0 : Bool) : Option State :=
  initializeNav
    { m_PageSize := pageSize
      m_CurrentPage := 1
      m_PageCount := 0
      m_PageBtnCount := middleBtnCount + 2
      m_MiddleBtnCount := middleBtnCount
      m_Total := if data.isEmpty then pageSize else (data.length : Int)
      m_Data := data
      m_ShowPrevMore := prev0
      m_ShowNextMore := next0
      startBtnText := 0
      endBtnText := 0
      bodyBtnTexts := []
      startBtnVisible := true
      endBtnVisible := true
      quickprevVisible := true
      quicknextVisible := true
      prevCheckable := false
      nextCheckable := false
      pageLineEditText := 0
      emitted := [] }

/-- The loop of the `Modify` case of `updateData` (lines 60-68); `dataIndex`
is `index + i`. -/
def modifyLoop : List Row → Int → List Row → List Row
  | [], _, d => d
  | r :: rs, dataIndex, d =>
    modifyLoop rs (dataIndex + 1)
      (if dataIndex < (d.length : Int) then d.set dataIndex.toNat r else d ++ [r])

/-- The loop of the `Delete` case of `updateData` (lines 72-74):
`m_Data.removeAll(data[i])` for every `i`. -/
def deleteLoop (data : List Row) (d : List Row) : List Row :=
  data.foldl (fun acc r => acc.filter (fun e => decide (e ≠ r))) d

/-- How a call of `updateData` ends. -/
inductive UpdateResult
  /-- The update ran to the end. -/
  | ok (s : State)
  /-- The dialog `QMessageBox::critical` was shown and the call returned at
  line 53; `s` is the state at that return. -/
  | invalidArgument (s : State)
  /-- Inside `initialize`, the page size was zero or a `QList::at` past the end
  was reached. -/
  | fault
  deriving DecidableEq, Repr

/-- The `switch` of `updateData` (lines 56-76): the new contents of `m_Data`. -/
def applyOperation (data : List Row) (operation : Operation) (index : Int)
    (d : List Row) : List Row :=
  match operation with
  | Operation.Append => d ++ data
  | Operation.Modify => modifyLoop data index d
  | Operation.Delete => deleteLoop data d

/-- Method `PageTable::updateData` (lines 46-80). -/
def updateData (data : List Row) (operation : Operation) (index : Int) (s : State) :
    UpdateResult :=
  if operation = Operation.Modify ∧ index < 0 then UpdateResult.invalidArgument s else
  let d := applyOperation data operation index s.m_Data
  match initializeNav { s with m_Data := d, m_Total := (d.length : Int) } with
  | none => UpdateResult.fault
  | some s' => UpdateResult.ok s'

/-- Library function `QList::mid(pos, length)` of Qt 5, after
`QContainerImplHelper::mid`: the comparison of `length` with the number of
remaining elements is done on `uint`. -/
def qlistMid (l : List Row) (pos len : Int) : List Row :=
  let originalLength : Int := l.length
  if pos > originalLength then []
  else if pos < 0 then
    if len < 0 ∨ len + pos ≥ originalLength then l
    else if len + pos ≤ 0 then []
    else l.take (len + pos).toNat
  else
    let len' :=
      if len % 4294967296 > (originalLength - pos) % 4294967296 then originalLength - pos
      else len
    (l.drop pos.toNat).take len'.toNat

/-- Method `PageTable::getCurrentPageData` (lines 85-89). -/
def getCurrentPageData (s : State) : List Row :=
  let startIndex := (s.m_CurrentPage - 1) * s.m_PageSize
  let endIndex := min (startIndex + s.m_PageSize) (s.m_Data.length : Int)
  qlistMid s.m_Data startIndex (endIndex - startIndex)

/-- State after `k` turns of the button-text loop of `setCurrentPage`, when
none of them faults: `updatePages` has stored its flags and the first `k` body
buttons carry the first `k` page numbers. -/
def afterLoop (s : State) (k : Nat) : State :=
  if k = 0 then s else
    { s with
      m_ShowPrevMore := showPrevMoreOf s
      m_ShowNextMore := showNextMoreOf s
      bodyBtnTexts := (pagesArray s).take k ++ s.bodyBtnTexts.drop k }

/-- States of a `PageTable` object: the constructor's result for a positive
page size and at least one middle button, closed under the calls
`updateData` and `setCurrentPage` that run to their end. (A rejected
`updateData` returns with the state it was called in.) -/
inductive Reachable : State → Prop
  | construct (data : List Row) (pageSize middleBtnCount : Int) (prev0 next0 : Bool)
      (s : State) (hp : 0 < pageSize) (hm : 1 ≤ middleBtnCount)
      (h : construct data pageSize middleBtnCount prev0 next0 = some s) : Reachable s
  | updateData (s s' : State) (data : List Row) (operation : Operation) (index : Int)
      (hr : Reachable s) (h : updateData data operation index s = UpdateResult.ok s') :
      Reachable s'
  | setCurrentPage (s s' : State) (page : Int)
      (hr : Reachable s) (h : setCurrentPage page s = some s') : Reachable s'

/-- What `initialize` establishes and `setCurrentPage` keeps: the page count
and the button count are those of lines 112 and 114, and there is one body
button for each `i` of the loop of line 134. -/
def Inv (s : State) : Prop :=
  0 < s.m_PageSize ∧ 1 ≤ s.m_MiddleBtnCount ∧ 0 ≤ s.m_Total ∧
    s.m_PageCount = (s.m_Total + s.m_PageSize - 1).tdiv s.m_PageSize ∧
    s.m_PageBtnCount =
      (if s.m_PageCount ≤ s.m_MiddleBtnCount then s.m_PageCount + 2
        else s.m_MiddleBtnCount + 2) ∧
    s.bodyBtnTexts.length = (s.m_PageBtnCount - 2).toNat

/-- The spec's `total_pages` for `n` records: `max(1, ceil(n / page_size))`,
with the division taken in the rationals. -/
def specTotalPages (n : Nat) (pageSize : Int) : Int :=
  max 1 (Int.ceil ((n : ℚ) / (pageSize : ℚ)))

/-- The spec's `current_page_slice`: the entries of the dataset at the
indices `i` with `(current_page-1)*page_size ≤ i < min(current_page*page_size, n)`,
in dataset order. -/
def specPageSlice (d : List Row) (currentPage pageSize : Int) : List Row :=
  (List.range d.length).filterMap (fun (i : Nat) =>
    if (currentPage - 1) * pageSize ≤ (i : Int) ∧
        (i : Int) < min (currentPage * pageSize) (d.length : Int) then d[i]? else none)

/-- The spec's `PaginationState`, with the prev/next enabled flags. -/
structure PaginationState where
  total_pages : Int
  visible_button_count : Int
  current_page : Int
  show_prev_ellipsis : Bool
  show_next_ellipsis : Bool
  visible_page_numbers : List Int
  prev_enabled : Bool
  next_enabled : Bool
  deriving DecidableEq, Repr

/-- The `PaginationState` that a state of the table shows. -/
def paginationState (s : State) : PaginationState :=
  { total_pages := s.m_PageCount
    visible_button_count := s.m_PageBtnCount
    current_page := s.m_CurrentPage
    show_prev_ellipsis := s.m_ShowPrevMore
    show_next_ellipsis := s.m_ShowNextMore
    visible_page_numbers := s.bodyBtnTexts
    prev_enabled := s.prevCheckable
    next_enabled := s.nextCheckable }

/-- The widgets that `eventFilter` compares `watched` with on a mouse release
(lines 300-326). `groupBtn i` stands for `m_BtnGroup->buttons().at(i)`: index 0
is `m_StartBtn`, index 1 is `m_EndBtn`, index `k + 2` is body button `k`. -/
inductive Watched
  | prevBtn
  | nextBtn
  | quickprevBtn
  | quicknextBtn
  | groupBtn (i : Nat)
  deriving DecidableEq, Repr

/-- Number read by `m_BtnGroup->buttons().at(i)->text().toInt()`; `none` when
`i` is not below `m_BtnGroup->buttons().count()`. -/
def groupBtnText (s : State) : Nat → Option Int
  | 0 => some s.startBtnText
  | 1 => some s.endBtnText
  | k + 2 => s.bodyBtnTexts[k]?

/-- The `MouseButtonRelease` branch of `PageTable::eventFilter` (lines
294-327): the page that the clicked widget asks for is passed to
`setCurrentPage`. -/
def mouseButtonRelease (watched : Watched) (s : State) : Option State :=
  let currentPage := s.m_CurrentPage
  let pagerCountOffset := s.m_PageBtnCount - 2
  match watched with
  | Watched.prevBtn =>
    if s.prevCheckable then setCurrentPage (s.m_CurrentPage - 1) s else some s
  | Watched.nextBtn =>
    if s.nextCheckable then setCurrentPage (s.m_CurrentPage + 1) s else some s
  | Watched.quickprevBtn => setCurrentPage (currentPage - pagerCountOffset) s
  | Watched.quicknextBtn => setCurrentPage (currentPage + pagerCountOffset) s
  | Watched.groupBtn i =>
    match groupBtnText s i with
    | some newPage => setCurrentPage newPage s
    | none => some s

/-- The current page is shown by a visible page button: it is the number of a
body button, or it is page 1 and `m_StartBtn` is visible, or it is the last
page and `m_EndBtn` is visible. -/
def currentPageShown (s : State) : Prop :=
  s.m_CurrentPage ∈ s.bodyBtnTexts ∨
    (s.m_CurrentPage = 1 ∧ s.startBtnVisible = true) ∨
    (s.m_CurrentPage = s.m_PageCount ∧ s.endBtnVisible = true)

instance (s : State) : Decidable (currentPageShown s) := by
  unfold currentPageShown; infer_instance

/-! ## Sample states -/

/-- State that the constructor returns for the single row `["a"]`, page size 25
and 10 middle buttons. -/
def sampleOneRow : State :=
  { m_PageSize := 25
    m_CurrentPage := 1
    m_PageCount := 1
    m_PageBtnCount := 3
    m_MiddleBtnCount := 10
    m_Total := 1
    m_Data := [["a"]]
    m_ShowPrevMore := false
    m_ShowNextMore := false
    startBtnText := 1
    endBtnText := 1
    bodyBtnTexts := [1]
    startBtnVisible := false
    endBtnVisible := false
    quickprevVisible := false
    quicknextVisible := false
    prevCheckable := false
    nextCheckable := false
    pageLineEditText := 1
    emitted := [1] }

/-- State of `sampleOneRow` after `updateData([["a"]], Delete)`. -/
def sampleEmptied : State :=
  { m_PageSize := 25
    m_CurrentPage := 0
    m_PageCount := 0
    m_PageBtnCount := 2
    m_MiddleBtnCount := 10
    m_Total := 0
    m_Data := []
    m_ShowPrevMore := false
    m_ShowNextMore := false
    startBtnText := 1
    endBtnText := 0
    bodyBtnTexts := []
    startBtnVisible := false
    endBtnVisible := false
    quickprevVisible := false
    quicknextVisible := false
    prevCheckable := false
    nextCheckable := true
    pageLineEditText := 1
    emitted := [1, 1] }

/-- State that the constructor returns for the rows `X, X, Y`, page size 25 and 10
middle buttons. -/
def sampleXXY : State :=
  { m_PageSize := 25
    m_CurrentPage := 1
    m_PageCount := 1
    m_PageBtnCount := 3
    m_MiddleBtnCount := 10
    m_Total := 3
    m_Data := [["X"], ["X"], ["Y"]]
    m_ShowPrevMore := false
    m_ShowNextMore := false
    startBtnText := 1
    endBtnText := 1
    bodyBtnTexts := [1]
    startBtnVisible := false
    endBtnVisible := false
    quickprevVisible := false
    quicknextVisible := false
    prevCheckable := false
    nextCheckable := false
    pageLineEditText := 1
    emitted := [1] }

/-- State that the constructor returns for 500 rows, page size 25 and 10 middle
buttons: 20 pages. -/
def sampleTwentyPages : State :=
  { m_PageSize := 25
    m_CurrentPage := 1
    m_PageCount := 20
    m_PageBtnCount := 12
    m_MiddleBtnCount := 10
    m_Total := 500
    m_Data := List.replicate 500 []
    m_ShowPrevMore := false
    m_ShowNextMore := true
    startBtnText := 1
    endBtnText := 20
    bodyBtnTexts := [1, 2, 3, 4, 5, 6, 7, 8, 9, 10]
    startBtnVisible := false
    endBtnVisible := true
    quickprevVisible := false
    quicknextVisible := true
    prevCheckable := false
    nextCheckable := true
    pageLineEditText := 1
    emitted := [1] }

/-- State of `sampleTwentyPages` after `setCurrentPage(25)`. -/
def sampleTwentyPagesAt25 : State :=
  { m_PageSize := 25
    m_CurrentPage := 20
    m_PageCount := 20
    m_PageBtnCount := 12
    m_MiddleBtnCount := 10
    m_Total := 500
    m_Data := List.replicate 500 []
    m_ShowPrevMore := true
    m_ShowNextMore := false
    startBtnText := 1
    endBtnText := 20
    bodyBtnTexts := [11, 12, 13, 14, 15, 16, 17, 18, 19, 20]
    startBtnVisible := true
    endBtnVisible := false
    quickprevVisible := true
    quicknextVisible := false
    prevCheckable := true
    nextCheckable := true
    pageLineEditText := 25
    emitted := [1, 25] }

/-- State of `sampleTwentyPages` after `setCurrentPage(10)`: both ellipses. -/
def sampleTwentyPagesAt10 : State :=
  { m_PageSize := 25
    m_CurrentPage := 10
    m_PageCount := 20
    m_PageBtnCount := 12
    m_MiddleBtnCount := 10
    m_Total := 500
    m_Data := List.replicate 500 []
    m_ShowPrevMore := true
    m_ShowNextMore := true
    startBtnText := 1
    endBtnText := 20
    bodyBtnTexts := [5, 6, 7, 8, 9, 10, 11, 12, 13, 14]
    startBtnVisible := true
    endBtnVisible := true
    quickprevVisible := true
    quicknextVisible := true
    prevCheckable := true
    nextCheckable := true
    pageLineEditText := 10
    emitted := [1, 10] }

/-- State that the constructor returns for 300 rows, page size 25 and 10 middle
buttons: 12 pages. -/
def sampleTwelvePages : State :=
  { m_PageSize := 25
    m_CurrentPage := 1
    m_PageCount := 12
    m_PageBtnCount := 12
    m_MiddleBtnCount := 10
    m_Total := 300
    m_Data := List.replicate 300 []
    m_ShowPrevMore := false
    m_ShowNextMore := true
    startBtnText := 1
    endBtnText := 12
    bodyBtnTexts := [1, 2, 3, 4, 5, 6, 7, 8, 9, 10]
    startBtnVisible := false
    endBtnVisible := true
    quickprevVisible := false
    quicknextVisible := true
    prevCheckable := false
    nextCheckable := true
    pageLineEditText := 1
    emitted := [1] }

/-- State of `sampleTwelvePages` after `setCurrentPage(12)`. -/
def sampleTwelvePagesAt12 : State :=
  { m_PageSize := 25
    m_CurrentPage := 12
    m_PageCount := 12
    m_PageBtnCount := 12
    m_MiddleBtnCount := 10
    m_Total := 300
    m_Data := List.replicate 300 []
    m_ShowPrevMore := false
    m_ShowNextMore := false
    startBtnText := 1
    endBtnText := 12
    bodyBtnTexts := [2, 3, 4, 5, 6, 7, 8, 9, 10, 11]
    startBtnVisible := false
    endBtnVisible := false
    quickprevVisible := false
    quicknextVisible := false
    prevCheckable := true
    nextCheckable := false
    pageLineEditText := 12
    emitted := [1, 12] }

/-! ## The button loop of `setCurrentPage` -/

theorem forRange_length (lo hi : Int) : (forRange lo hi).length = (hi - lo).toNat := by
  simp [forRange]

theorem pagesArray_congr (s t : State)
    (h1 : t.m_PageBtnCount = s.m_PageBtnCount) (h2 : t.m_CurrentPage = s.m_CurrentPage)
    (h3 : t.m_PageCount = s.m_PageCount) (h4 : t.m_MiddleBtnCount = s.m_MiddleBtnCount)
    (h5 : t.bodyBtnTexts.length = s.bodyBtnTexts.length) :
    showPrevMoreOf t = showPrevMoreOf s ∧ showNextMoreOf t = showNextMoreOf s ∧
      pagesArray t = pagesArray s := by
  have hp : showPrevMoreOf t = showPrevMoreOf s := by
    simp only [showPrevMoreOf, h1, h2, h3]
  have hn : showNextMoreOf t = showNextMoreOf s := by
    simp only [showNextMoreOf, btnGroupSize, h1, h2, h3, h4, h5]
  refine ⟨hp, hn, ?_⟩
  simp only [pagesArray, hp, hn, h1, h2, h3, h4]

theorem tdiv_two_bound (x : Int) (hx : 0 ≤ x) : x - 1 ≤ 2 * x.tdiv 2 := by
  rw [Int.tdiv_eq_ediv hx (by decide)]
  omega

/-- The list of `updatePages` has an entry for every body button that
`initialize` allocates. -/
theorem pagesArray_length_ge (s : State) :
    (s.m_PageBtnCount - 2).toNat ≤ (pagesArray s).length := by
  unfold pagesArray
  simp only
  split
  · rw [forRange_length]; omega
  · split
    · rw [List.length_map, forRange_length]
    · split
      · rw [forRange_length]
        rcases Int.lt_or_le s.m_PageBtnCount 0 with h | h
        · omega
        · have := tdiv_two_bound s.m_PageBtnCount h
          omega
      · rw [List.length_map, forRange_length]

theorem afterLoop_fields (s : State) (k : Nat) (hk : k ≤ (pagesArray s).length)
    (hn : k ≤ s.bodyBtnTexts.length) :
    (afterLoop s k).m_PageBtnCount = s.m_PageBtnCount ∧
    (afterLoop s k).m_CurrentPage = s.m_CurrentPage ∧
    (afterLoop s k).m_PageCount = s.m_PageCount ∧
    (afterLoop s k).m_MiddleBtnCount = s.m_MiddleBtnCount ∧
    (afterLoop s k).bodyBtnTexts.length = s.bodyBtnTexts.length := by
  unfold afterLoop
  split
  · simp
  · refine ⟨rfl, rfl, rfl, rfl, ?_⟩
    simp only [List.length_append, List.length_take, List.length_drop]
    omega

theorem take_append_drop_set (a b : List Int) (k : Nat) (v : Int)
    (ha : a[k]? = some v) (hb : k < b.length) :
    (a.take k ++ b.drop k).set k v = a.take (k + 1) ++ b.drop (k + 1) := by
  have hka : k < a.length := by
    rcases Nat.lt_or_ge k a.length with h | h
    · exact h
    · rw [List.getElem?_eq_none h] at ha; cases ha
  have hv : a[k] = v := by
    rw [List.getElem?_eq_getElem hka] at ha; exact Option.some.inj ha
  have hlen : (a.take k).length = k := by simp; omega
  rw [List.set_append_right _ _ (by omega)]
  rw [hlen, Nat.sub_self]
  rw [List.take_succ, List.getElem?_eq_getElem hka, hv]
  rw [List.drop_eq_getElem_cons hb]
  simp [List.set]

theorem loop_step (s : State) (k : Nat) (hk : k ≤ (pagesArray s).length)
    (hn : k < s.bodyBtnTexts.length) :
    setBtnText (afterLoop s k) k =
      if k + 1 ≤ (pagesArray s).length then some (afterLoop s (k + 1)) else none := by
  obtain ⟨f1, f2, f3, f4, f5⟩ := afterLoop_fields s k hk (Nat.le_of_lt hn)
  obtain ⟨c1, c2, c3⟩ := pagesArray_congr s (afterLoop s k) f1 f2 f3 f4 f5
  unfold setBtnText updatePages
  simp only [c1, c2, c3]
  by_cases h : k + 1 ≤ (pagesArray s).length
  · have hlt : k < (pagesArray s).length := h
    rw [if_pos h, List.getElem?_eq_getElem hlt]
    simp only
    congr 1
    by_cases hk0 : k = 0
    · subst hk0
      have := take_append_drop_set (pagesArray s) s.bodyBtnTexts 0 _
        (List.getElem?_eq_getElem hlt) hn
      simp only [afterLoop, if_true, Nat.zero_add, Nat.succ_ne_zero, if_false]
      simp only [List.take_zero, List.nil_append, List.drop_zero] at this
      rw [this]
    · have := take_append_drop_set (pagesArray s) s.bodyBtnTexts k _
        (List.getElem?_eq_getElem hlt) hn
      simp only [afterLoop, hk0, if_false, Nat.succ_ne_zero]
      rw [this]
  · rw [if_neg h, List.getElem?_eq_none (by omega)]

theorem loop_closed (s : State) (k : Nat) (hn : k ≤ s.bodyBtnTexts.length) :
    (List.range k).foldlM setBtnText s =
      if k ≤ (pagesArray s).length then some (afterLoop s k) else none := by
  induction k with
  | zero => simp [afterLoop]
  | succ k ih =>
    rw [List.range_succ, List.foldlM_append, ih (by omega)]
    by_cases h : k ≤ (pagesArray s).length
    · rw [if_pos h]
      simp only [Option.bind_eq_bind, Option.some_bind, List.foldlM_cons, List.foldlM_nil]
      rw [loop_step s k h hn]
      split <;> simp
    · rw [if_neg h, if_neg (by omega)]
      rfl

/-! ## `setCurrentPage` and `initialize` -/

/-- Closed form of `setCurrentPage`: it faults exactly when there are more
body buttons than entries in the list of `updatePages`. -/
theorem setCurrentPage_eq (page : Int) (s : State) :
    setCurrentPage page s =
      if s.bodyBtnTexts.length ≤ (pagesArray (storePage page s)).length then
        some (finishPage page (afterLoop (storePage page s) s.bodyBtnTexts.length))
      else none := by
  unfold setCurrentPage
  simp only [getButtonsCount]
  have hlen : (storePage page s).bodyBtnTexts.length = s.bodyBtnTexts.length := rfl
  rw [hlen, loop_closed (storePage page s) s.bodyBtnTexts.length (by rw [hlen])]
  by_cases hle : s.bodyBtnTexts.length ≤ (pagesArray (storePage page s)).length
  · rw [if_pos hle, if_pos hle]
  · rw [if_neg hle, if_neg hle]

/-- What a completed `setCurrentPage` leaves in each field. -/
theorem setCurrentPage_fields (page : Int) (s s' : State)
    (h : setCurrentPage page s = some s') :
    s'.m_CurrentPage =
        (if page < 1 then 1 else if page > s.m_PageCount then s.m_PageCount else page) ∧
      s'.m_PageCount = s.m_PageCount ∧ s'.m_PageBtnCount = s.m_PageBtnCount ∧
      s'.m_MiddleBtnCount = s.m_MiddleBtnCount ∧ s'.m_PageSize = s.m_PageSize ∧
      s'.m_Total = s.m_Total ∧ s'.m_Data = s.m_Data ∧
      s'.bodyBtnTexts.length = s.bodyBtnTexts.length ∧
      s'.prevCheckable = (if page = 1 then false else true) ∧
      s'.nextCheckable = (if page = s.m_PageCount then false else true) ∧
      s'.emitted = s.emitted ++ [page] ∧
      s'.startBtnText = s.startBtnText ∧ s'.endBtnText = s.endBtnText := by
  rw [setCurrentPage_eq] at h
  split at h
  · rename_i hle
    have h' := Option.some.inj h
    subst h'
    obtain ⟨f1, f2, f3, f4, f5⟩ :=
      afterLoop_fields (storePage page s) s.bodyBtnTexts.length hle (Nat.le_refl _)
    refine ⟨?_, ?_, ?_, ?_, ?_, ?_, ?_, ?_, ?_, ?_, ?_, ?_, ?_⟩
    · exact f2
    · exact f3
    · exact f1
    · exact f4
    · unfold afterLoop; split <;> rfl
    · unfold afterLoop; split <;> rfl
    · unfold afterLoop; split <;> rfl
    · exact f5
    · rfl
    · show (if page = (afterLoop (storePage page s) s.bodyBtnTexts.length).m_PageCount
        then false else true) = _
      rw [f3]; rfl
    · show (afterLoop (storePage page s) s.bodyBtnTexts.length).emitted ++ [page] = _
      unfold afterLoop; split <;> rfl
    · unfold afterLoop; split <;> rfl
    · unfold afterLoop; split <;> rfl
  · cases h

/-- A state whose body buttons are those allocated for its `m_PageBtnCount`
never faults in `setCurrentPage`. -/
theorem setCurrentPage_total (page : Int) (s : State)
    (hb : s.bodyBtnTexts.length = (s.m_PageBtnCount - 2).toNat) :
    ∃ s', setCurrentPage page s = some s' := by
  rw [setCurrentPage_eq]
  have := pagesArray_length_ge (storePage page s)
  have hpb : (storePage page s).m_PageBtnCount = s.m_PageBtnCount := rfl
  rw [hpb, ← hb] at this
  rw [if_pos this]
  exact ⟨_, rfl⟩

/-- The page count that `initialize` computes (line 112). -/
theorem initializeNav_spec (s : State) (hps : s.m_PageSize ≠ 0) :
    ∃ s', initializeNav s = some s' ∧
      s'.m_PageCount = (s.m_Total + s.m_PageSize - 1).tdiv s.m_PageSize ∧
      s'.m_PageBtnCount =
        (if s'.m_PageCount ≤ s.m_MiddleBtnCount then s'.m_PageCount + 2
          else s.m_MiddleBtnCount + 2) ∧
      s'.bodyBtnTexts.length = (s'.m_PageBtnCount - 2).toNat ∧
      s'.m_CurrentPage =
        (if s.m_CurrentPage < 1 then 1
          else if s.m_CurrentPage > s'.m_PageCount then s'.m_PageCount else s.m_CurrentPage) ∧
      s'.m_MiddleBtnCount = s.m_MiddleBtnCount ∧ s'.m_PageSize = s.m_PageSize ∧
      s'.m_Total = s.m_Total ∧ s'.m_Data = s.m_Data := by
  unfold initializeNav
  rw [if_neg hps]
  simp only
  generalize hs1 : ({ s with
      m_PageCount := (s.m_Total + s.m_PageSize - 1).tdiv s.m_PageSize
      m_PageBtnCount :=
        if (s.m_Total + s.m_PageSize - 1).tdiv s.m_PageSize ≤ s.m_MiddleBtnCount then
          (s.m_Total + s.m_PageSize - 1).tdiv s.m_PageSize + 2
        else s.m_MiddleBtnCount + 2
      startBtnText := 1
      endBtnText := (s.m_Total + s.m_PageSize - 1).tdiv s.m_PageSize
      quickprevVisible := false
      bodyBtnTexts :=
        (forRange 2
          (if (s.m_Total + s.m_PageSize - 1).tdiv s.m_PageSize ≤ s.m_MiddleBtnCount then
            (s.m_Total + s.m_PageSize - 1).tdiv s.m_PageSize + 2
          else s.m_MiddleBtnCount + 2)).map
          (fun i => if (s.m_Total + s.m_PageSize - 1).tdiv s.m_PageSize ≤ s.m_MiddleBtnCount
            then i - 1 else i) } : State) = s1
  have hb : s1.bodyBtnTexts.length = (s1.m_PageBtnCount - 2).toNat := by
    subst hs1; simp only [List.length_map, forRange_length]
  obtain ⟨s', hs'⟩ := setCurrentPage_total s.m_CurrentPage s1 hb
  refine ⟨s', hs', ?_⟩
  obtain ⟨g1, g2, g3, g4, g5, g6, g7, g8, -⟩ := setCurrentPage_fields _ _ _ hs'
  have e2 : s1.m_PageCount = (s.m_Total + s.m_PageSize - 1).tdiv s.m_PageSize := by
    subst hs1; rfl
  have e3 : s1.m_PageBtnCount = (if s1.m_PageCount ≤ s.m_MiddleBtnCount then s1.m_PageCount + 2
          else s.m_MiddleBtnCount + 2) := by
    subst hs1; rfl
  have e4 : s1.m_MiddleBtnCount = s.m_MiddleBtnCount := by subst hs1; rfl
  have e5 : s1.m_PageSize = s.m_PageSize := by subst hs1; rfl
  have e6 : s1.m_Total = s.m_Total := by subst hs1; rfl
  have e7 : s1.m_Data = s.m_Data := by subst hs1; rfl
  refine ⟨?_, ?_, ?_, ?_, ?_, ?_, ?_, ?_⟩
  · rw [g2, e2]
  · rw [g3, g2, e3]
  · rw [g8, g3, hb]
  · rw [g1, g2]
  · rw [g4, e4]
  · rw [g5, e5]
  · rw [g6, e6]
  · rw [g7, e7]

/-! ## Page count -/

/-- The rounding-up division of `initialize` is the ceiling of the quotient. -/
theorem tdiv_eq_ceil (n : Nat) (ps : Int) (h : 0 < ps) :
    ((n : Int) + ps - 1).tdiv ps = Int.ceil ((n : ℚ) / (ps : ℚ)) := by
  rw [Int.tdiv_eq_ediv (by omega) (by omega)]
  symm
  rw [Int.ceil_eq_iff]
  have hq : (0 : ℚ) < (ps : ℚ) := by exact_mod_cast h
  have h1 : ((n : Int) + ps - 1) / ps * ps ≤ (n : Int) + ps - 1 := Int.ediv_mul_le _ (by omega)
  have h2 : (n : Int) + ps - 1 < (((n : Int) + ps - 1) / ps + 1) * ps :=
    Int.lt_ediv_add_one_mul_self _ h
  generalize ((n : Int) + ps - 1) / ps = z at h1 h2
  constructor
  · rw [lt_div_iff₀ hq]
    have : (z - 1) * ps < (n : Int) := by nlinarith
    exact_mod_cast this
  · rw [div_le_iff₀ hq]
    have : (n : Int) ≤ z * ps := by nlinarith
    exact_mod_cast this

theorem pageCount_eq_spec (n : Nat) (ps : Int) (h : 0 < ps) (hn : 0 < n) :
    ((n : Int) + ps - 1).tdiv ps = specTotalPages n ps := by
  unfold specTotalPages
  rw [← tdiv_eq_ceil n ps h, Int.tdiv_eq_ediv (by omega) (by omega)]
  have : 1 ≤ ((n : Int) + ps - 1) / ps := by
    rw [Int.le_ediv_iff_mul_le h]; omega
  omega

theorem specTotalPages_zero (ps : Int) : specTotalPages 0 ps = 1 := by
  simp [specTotalPages]

/-! ## Invariant of the reachable states -/

/-- The flags and button texts left by a completed `setCurrentPage` when there
is at least one body button. -/
theorem setCurrentPage_flags (page : Int) (s s' : State)
    (h : setCurrentPage page s = some s') (hn : 0 < s.bodyBtnTexts.length) :
    s'.m_ShowPrevMore = showPrevMoreOf (storePage page s) ∧
      s'.m_ShowNextMore = showNextMoreOf (storePage page s) ∧
      s'.bodyBtnTexts = (pagesArray (storePage page s)).take s.bodyBtnTexts.length := by
  rw [setCurrentPage_eq] at h
  split at h
  · have h' := Option.some.inj h
    subst h'
    have hne : s.bodyBtnTexts.length ≠ 0 := by omega
    simp only [finishPage, afterLoop, hne, if_false]
    refine ⟨trivial, trivial, ?_⟩
    have : (storePage page s).bodyBtnTexts = s.bodyBtnTexts := rfl
    rw [this, List.drop_length, List.append_nil]
  · cases h

/-- The ellipsis buttons are shown according to the stored flags. -/
theorem setCurrentPage_visible (page : Int) (s s' : State)
    (h : setCurrentPage page s = some s') :
    s'.quickprevVisible = s'.m_ShowPrevMore ∧ s'.quicknextVisible = s'.m_ShowNextMore ∧
      s'.endBtnVisible = s'.m_ShowNextMore := by
  rw [setCurrentPage_eq] at h
  split at h
  · have h' := Option.some.inj h
    subst h'
    exact ⟨rfl, rfl, rfl⟩
  · cases h

theorem inv_setCurrentPage (page : Int) (s s' : State) (hi : Inv s)
    (h : setCurrentPage page s = some s') : Inv s' := by
  obtain ⟨g1, g2, g3, g4, g5, g6, g7, g8, -⟩ := setCurrentPage_fields page s s' h
  obtain ⟨i1, i2, i3, i4, i5, i6⟩ := hi
  refine ⟨?_, ?_, ?_, ?_, ?_, ?_⟩
  · rw [g5]; exact i1
  · rw [g4]; exact i2
  · rw [g6]; exact i3
  · rw [g2, g6, g5]; exact i4
  · rw [g3, g2, g4]; exact i5
  · rw [g8, g3]; exact i6

theorem inv_initializeNav (s s' : State) (hp : 0 < s.m_PageSize) (hm : 1 ≤ s.m_MiddleBtnCount)
    (ht : 0 ≤ s.m_Total) (h : initializeNav s = some s') : Inv s' := by
  obtain ⟨t, ht', g1, g2, g3, -, g5, g6, g7, -⟩ := initializeNav_spec s (by omega)
  rw [h] at ht'
  have := Option.some.inj ht'
  subst this
  refine ⟨?_, ?_, ?_, ?_, ?_, ?_⟩
  · rw [g6]; exact hp
  · rw [g5]; exact hm
  · rw [g7]; exact ht
  · rw [g1, g7, g6]
  · rw [g5]; exact g2
  · exact g3

/-- A call of `updateData` that is not a `Modify` with a negative index runs
to the end on a state with a nonzero page size; it stores the new data, its
size, and the page count of line 112, and clamps the previous current page. -/
theorem updateData_ok (data : List Row) (operation : Operation) (index : Int) (s : State)
    (hps : s.m_PageSize ≠ 0) (hv : ¬(operation = Operation.Modify ∧ index < 0)) :
    ∃ s', updateData data operation index s = UpdateResult.ok s' ∧
      s'.m_Data = applyOperation data operation index s.m_Data ∧
      s'.m_Total = ((applyOperation data operation index s.m_Data).length : Int) ∧
      s'.m_PageSize = s.m_PageSize ∧ s'.m_MiddleBtnCount = s.m_MiddleBtnCount ∧
      s'.m_PageCount =
        (((applyOperation data operation index s.m_Data).length : Int) + s.m_PageSize - 1).tdiv
          s.m_PageSize ∧
      s'.m_CurrentPage =
        (if s.m_CurrentPage < 1 then 1
          else if s.m_CurrentPage > s'.m_PageCount then s'.m_PageCount else s.m_CurrentPage) := by
  unfold updateData
  rw [if_neg hv]
  simp only
  obtain ⟨s', h, g1, -, -, g4, g5, g6, g7, g8⟩ := initializeNav_spec
    { s with m_Data := applyOperation data operation index s.m_Data,
             m_Total := ((applyOperation data operation index s.m_Data).length : Int) } hps
  rw [h]
  exact ⟨s', rfl, g8, g7, g6, g5, g1, g4⟩

theorem inv_updateData (data : List Row) (operation : Operation) (index : Int) (s s' : State)
    (hi : Inv s) (h : updateData data operation index s = UpdateResult.ok s') : Inv s' := by
  obtain ⟨i1, i2, -⟩ := hi
  unfold updateData at h
  split at h
  · cases h
  · simp only at h
    split at h
    · cases h
    · rename_i t ht
      have := UpdateResult.ok.inj h
      subst this
      refine inv_initializeNav _ _ ?_ ?_ ?_ ht
      · exact i1
      · exact i2
      · exact Int.ofNat_nonneg _

/-- The constructor returns for a positive page size, with page count
`max(1, ceil(n / page_size))` and current page 1. -/
theorem construct_spec (data : List Row) (pageSize middleBtnCount : Int) (prev0 next0 : Bool)
    (hp : 0 < pageSize) :
    ∃ s, construct data pageSize middleBtnCount prev0 next0 = some s ∧
      s.m_PageCount = specTotalPages data.length pageSize ∧ s.m_Data = data ∧
      s.m_PageSize = pageSize ∧ s.m_MiddleBtnCount = middleBtnCount ∧ s.m_CurrentPage = 1 := by
  unfold construct
  obtain ⟨s', h, g1, -, -, g4, g5, g6, -, g8⟩ := initializeNav_spec
    { m_PageSize := pageSize, m_CurrentPage := 1, m_PageCount := 0,
      m_PageBtnCount := middleBtnCount + 2, m_MiddleBtnCount := middleBtnCount,
      m_Total := if data.isEmpty then pageSize else (data.length : Int), m_Data := data,
      m_ShowPrevMore := prev0, m_ShowNextMore := next0, startBtnText := 0, endBtnText := 0,
      bodyBtnTexts := [], startBtnVisible := true, endBtnVisible := true,
      quickprevVisible := true, quicknextVisible := true, prevCheckable := false,
      nextCheckable := false, pageLineEditText := 0, emitted := [] } (by simp only; omega)
  simp only at g1 g4 g5 g6 g8
  have hpc : s'.m_PageCount = specTotalPages data.length pageSize := by
    rw [g1]
    cases data with
    | nil =>
      simp only [List.isEmpty_nil, if_true, List.length_nil, specTotalPages_zero]
      rw [Int.tdiv_eq_ediv (by omega) (by omega)]
      have h1 : 1 ≤ (pageSize + pageSize - 1) / pageSize := by
        rw [Int.le_ediv_iff_mul_le hp]; omega
      have h2 : (pageSize + pageSize - 1) / pageSize < 2 := by
        rw [Int.ediv_lt_iff_lt_mul hp]; omega
      omega
    | cons r rs =>
      simp only [List.isEmpty_cons, Bool.false_eq_true, if_false]
      exact pageCount_eq_spec _ _ hp (by simp)
  refine ⟨s', h, hpc, g8, g6, g5, ?_⟩
  rw [g4, if_neg (by omega), if_neg]
  rw [hpc]; unfold specTotalPages; omega

theorem inv_construct (data : List Row) (pageSize middleBtnCount : Int) (prev0 next0 : Bool)
    (s : State) (hp : 0 < pageSize) (hm : 1 ≤ middleBtnCount)
    (h : construct data pageSize middleBtnCount prev0 next0 = some s) : Inv s := by
  unfold construct at h
  refine inv_initializeNav _ _ hp hm ?_ h
  simp only
  split
  · omega
  · exact Int.ofNat_nonneg _

/-- Every reachable state satisfies the invariant of `initialize`. -/
theorem reachable_inv (s : State) (hr : Reachable s) : Inv s := by
  induction hr with
  | construct data pageSize middleBtnCount prev0 next0 s hp hm h =>
    exact inv_construct data pageSize middleBtnCount prev0 next0 s hp hm h
  | updateData s s' data operation index _ h ih =>
    exact inv_updateData data operation index s s' ih h
  | setCurrentPage s s' page _ h ih =>
    exact inv_setCurrentPage page s s' ih h

/-! ## The sample states are states of the program -/

theorem construct_sampleOneRow : construct [["a"]] 25 10 false false = some sampleOneRow := by
  decide

theorem updateData_sampleOneRow :
    updateData [["a"]] Operation.Delete (-1) sampleOneRow = UpdateResult.ok sampleEmptied := by
  decide

theorem construct_sampleXXY :
    construct [["X"], ["X"], ["Y"]] 25 10 false false = some sampleXXY := by
  decide

set_option maxRecDepth 20000 in
theorem construct_sampleTwentyPages :
    construct (List.replicate 500 []) 25 10 false false = some sampleTwentyPages := by
  decide

set_option maxRecDepth 20000 in
theorem setCurrentPage_sampleTwentyPages :
    setCurrentPage 25 sampleTwentyPages = some sampleTwentyPagesAt25 := by
  decide

/-! ## C1: page count -/

/-- Page count after a completed `updateData`: the ceiling of `n / page_size`
for `n > 0` records, but `0` when no record is left. -/
theorem updateData_pageCount (data : List Row) (operation : Operation) (index : Int)
    (s s' : State) (hp : 0 < s.m_PageSize)
    (h : updateData data operation index s = UpdateResult.ok s') :
    s'.m_PageCount = if s'.m_Data.length = 0 then 0
      else specTotalPages s'.m_Data.length s'.m_PageSize := by
  have hv : ¬(operation = Operation.Modify ∧ index < 0) := by
    intro hv
    unfold updateData at h
    rw [if_pos hv] at h
    cases h
  obtain ⟨t, ht, g1, g2, g3, -, g5, -⟩ := updateData_ok data operation index s (by omega) hv
  rw [h] at ht
  have := UpdateResult.ok.inj ht
  subst this
  rw [g5, g1, g3]
  split
  · rename_i h0
    rw [h0, Int.tdiv_eq_ediv (by simp; omega) (by omega)]
    simp only [Nat.cast_zero, zero_add]
    exact Int.ediv_eq_zero_of_lt (by omega) (by omega)
  · rename_i h0
    exact pageCount_eq_spec _ _ hp (by omega)

/-- C1, at the failing input: a table built on the single row `["a"]` with
page size 25 has one page; after `updateData([["a"]], Delete)` it holds no
record and its page count is 0, where `max(1, ceil(0 / 25))` is 1. -/
theorem pageCount_zero_after_delete_all :
    construct [["a"]] 25 10 false false = some sampleOneRow ∧
      sampleOneRow.m_PageCount = 1 ∧
      updateData [["a"]] Operation.Delete (-1) sampleOneRow = UpdateResult.ok sampleEmptied ∧
      sampleEmptied.m_Data = [] ∧ sampleEmptied.m_PageCount = 0 ∧
      specTotalPages sampleEmptied.m_Data.length sampleEmptied.m_PageSize = 1 :=
  ⟨construct_sampleOneRow, rfl, updateData_sampleOneRow, rfl, rfl, specTotalPages_zero _⟩

/-! ## C2: clamp of the current page -/

/-- With at least one page, a completed `setCurrentPage` stores the clamped
page, which lies in `[1, page_count]`. -/
theorem setCurrentPage_clamp (page : Int) (s : State)
    (hb : s.bodyBtnTexts.length = (s.m_PageBtnCount - 2).toNat) (hpc : 1 ≤ s.m_PageCount) :
    ∃ s', setCurrentPage page s = some s' ∧
      s'.m_CurrentPage = max 1 (min page s.m_PageCount) ∧
      1 ≤ s'.m_CurrentPage ∧ s'.m_CurrentPage ≤ s'.m_PageCount := by
  obtain ⟨s', h⟩ := setCurrentPage_total page s hb
  obtain ⟨g1, g2, -⟩ := setCurrentPage_fields page s s' h
  refine ⟨s', h, ?_, ?_, ?_⟩
  · rw [g1]; split <;> [omega; (split <;> omega)]
  · rw [g1]; split <;> [omega; (split <;> omega)]
  · rw [g1, g2]; split <;> [omega; (split <;> omega)]

theorem reachable_sampleEmptied : Reachable sampleEmptied :=
  Reachable.updateData sampleOneRow sampleEmptied [["a"]] Operation.Delete (-1)
    (Reachable.construct [["a"]] 25 10 false false sampleOneRow (by decide) (by decide)
      construct_sampleOneRow)
    updateData_sampleOneRow

/-- C2, at the failing input: in the reachable state left by building a table
on the single row `["a"]` and deleting that row, the page count is 0 and
`setCurrentPage(5)` stores current page 0, where `max(1, min(5, 0))` is 1; the
stored page is below 1. -/
theorem currentPage_zero_after_delete_all :
    Reachable sampleEmptied ∧ sampleEmptied.m_PageCount = 0 ∧
      (setCurrentPage 5 sampleEmptied).map (fun s => s.m_CurrentPage) = some 0 ∧
      max 1 (min 5 sampleEmptied.m_PageCount) = 1 :=
  ⟨reachable_sampleEmptied, rfl, by decide, by decide⟩

/-! ## C3: the only rejected call -/

/-- C3: `updateData` ends in `invalidArgument` exactly for a `Modify` with a
negative index; the state at that return is the state of the call, so no field
has changed; every other call on a table with a nonzero page size runs to the
end. -/
theorem updateData_rejects_iff_modify_negative (data : List Row) (operation : Operation)
    (index : Int) (s : State) :
    ((∃ s', updateData data operation index s = UpdateResult.invalidArgument s') ↔
        (operation = Operation.Modify ∧ index < 0)) ∧
      (∀ s', updateData data operation index s = UpdateResult.invalidArgument s' → s' = s) ∧
      (s.m_PageSize ≠ 0 → ¬(operation = Operation.Modify ∧ index < 0) →
        ∃ s', updateData data operation index s = UpdateResult.ok s') := by
  have key : ∀ s', updateData data operation index s = UpdateResult.invalidArgument s' →
      (operation = Operation.Modify ∧ index < 0) ∧ s' = s := by
    intro s' h
    unfold updateData at h
    split at h
    · rename_i hv
      exact ⟨hv, (UpdateResult.invalidArgument.inj h).symm⟩
    · simp only at h
      split at h <;> cases h
  refine ⟨⟨?_, ?_⟩, ?_, ?_⟩
  · rintro ⟨s', h⟩
    exact (key s' h).1
  · intro hv
    exact ⟨s, by unfold updateData; rw [if_pos hv]⟩
  · intro s' h
    exact (key s' h).2
  · intro hps hv
    obtain ⟨s', h, -⟩ := updateData_ok data operation index s hps hv
    exact ⟨s', h⟩

/-- Witness of C3 on the one-row table: `Modify` at index -1 is rejected with
the state unchanged, and `Delete` at index -1 runs to the end. -/
theorem updateData_rejects_iff_modify_negative_witness :
    updateData [["b"]] Operation.Modify (-1) sampleOneRow =
        UpdateResult.invalidArgument sampleOneRow ∧
      ∃ s', updateData [["b"]] Operation.Delete (-1) sampleOneRow = UpdateResult.ok s' :=
  ⟨by decide,
    (updateData_rejects_iff_modify_negative [["b"]] Operation.Delete (-1) sampleOneRow).2.2
      (by decide) (by decide)⟩

/-! ## C4: delete -/

theorem deleteLoop_eq_filter (data d : List Row) :
    deleteLoop data d = d.filter (fun e => decide (e ∉ data)) := by
  unfold deleteLoop
  induction data generalizing d with
  | nil => simp
  | cons r rs ih =>
    rw [List.foldl_cons]
    have h := ih (List.filter (fun e => decide (e ≠ r)) d)
    simp only [List.filter_filter] at h
    rw [h]
    apply List.filter_congr
    intro e _
    simp only [List.mem_cons, not_or, Bool.decide_and, ne_eq, Bool.and_comm]

/-- C4: `updateData(R, Delete)` runs to the end and leaves in `m_Data` the
entries of the old dataset that are equal to no row of `R`, in their old
order: every occurrence of a row of `R` is removed. -/
theorem delete_removes_all_equal_rows (data : List Row) (index : Int) (s : State)
    (hps : s.m_PageSize ≠ 0) :
    ∃ s', updateData data Operation.Delete index s = UpdateResult.ok s' ∧
      s'.m_Data = s.m_Data.filter (fun e => decide (e ∉ data)) := by
  obtain ⟨s', h, g, -⟩ := updateData_ok data Operation.Delete index s hps (by simp)
  refine ⟨s', h, ?_⟩
  rw [g]
  exact deleteLoop_eq_filter data s.m_Data

/-- Witness of C4: on the dataset `[X, X, Y]`, deleting `[X]` leaves `[Y]`. -/
theorem delete_removes_all_equal_rows_witness :
    sampleXXY.m_Data = [["X"], ["X"], ["Y"]] ∧
      ∃ s', updateData [["X"]] Operation.Delete (-1) sampleXXY = UpdateResult.ok s' ∧
        s'.m_Data = [["Y"]] := by
  obtain ⟨s', h, g⟩ := delete_removes_all_equal_rows [["X"]] (-1) sampleXXY (by decide)
  exact ⟨rfl, s', h, by rw [g]; decide⟩

/-! ## C5: modify -/

theorem modifyLoop_eq (data : List Row) (i : Nat) (d : List Row) :
    modifyLoop data (i : Int) d = d.take i ++ data ++ d.drop (i + data.length) := by
  induction data generalizing i d with
  | nil => simp [modifyLoop]
  | cons r rs ih =>
    unfold modifyLoop
    have hi : ((i : Int) + 1) = ((i + 1 : Nat) : Int) := by push_cast; rfl
    rw [hi, ih]
    by_cases h : (i : Int) < (d.length : Int)
    · have h' : i < d.length := by omega
      rw [if_pos h, Int.toNat_ofNat]
      rw [List.set_take, List.drop_set_of_lt r d (by omega)]
      rw [List.take_succ, List.getElem?_eq_getElem h']
      have hl : (List.take i d).length = i := by simp; omega
      simp only [Option.toList_some]
      rw [List.set_append_right _ _ (by omega), hl, Nat.sub_self]
      simp only [List.set_cons_zero, List.length_cons, List.append_assoc, List.singleton_append]
      congr 3
      omega
    · have h' : d.length ≤ i := by omega
      rw [if_neg h]
      rw [List.take_of_length_le (by simp; omega), List.take_of_length_le h']
      rw [List.drop_eq_nil_of_le (by simp; omega), List.drop_eq_nil_of_le (by simp; omega)]
      simp

/-- C5: for a start index `s ≥ 0`, `updateData(R, Modify, s)` runs to the end
and leaves `D[0..s) ++ R ++ D[s+m..N)` when `s ≤ N`, and `D ++ R` when
`s ≥ N`; at `s = N` this is the dataset that `updateData(R, Append)` leaves. -/
theorem modify_overwrites_then_appends (data : List Row) (index : Int) (s : State)
    (hps : s.m_PageSize ≠ 0) (hidx : 0 ≤ index) :
    ∃ s', updateData data Operation.Modify index s = UpdateResult.ok s' ∧
      (index ≤ (s.m_Data.length : Int) →
        s'.m_Data = s.m_Data.take index.toNat ++ data ++
          s.m_Data.drop (index.toNat + data.length)) ∧
      ((s.m_Data.length : Int) ≤ index → s'.m_Data = s.m_Data ++ data) ∧
      (index = (s.m_Data.length : Int) → ∀ j : Int,
        ∃ sa, updateData data Operation.Append j s = UpdateResult.ok sa ∧
          sa.m_Data = s'.m_Data) := by
  obtain ⟨s', h, g, -⟩ := updateData_ok data Operation.Modify index s hps (by omega)
  have hm : s'.m_Data = s.m_Data.take index.toNat ++ data ++
      s.m_Data.drop (index.toNat + data.length) := by
    rw [g]
    show modifyLoop data index s.m_Data = _
    have : index = ((index.toNat : Nat) : Int) := (Int.toNat_of_nonneg hidx).symm
    rw [this, modifyLoop_eq, Int.toNat_ofNat]
  have ha : (s.m_Data.length : Int) ≤ index → s'.m_Data = s.m_Data ++ data := by
    intro hle
    rw [hm, List.take_of_length_le (by omega), List.drop_eq_nil_of_le (by omega)]
    simp
  refine ⟨s', h, fun _ => hm, ha, ?_⟩
  intro he j
  obtain ⟨sa, h2, g2, -⟩ := updateData_ok data Operation.Append j s hps (by simp)
  exact ⟨sa, h2, by rw [g2, ha (by omega)]; rfl⟩

/-- Witness of C5 on the dataset `[X, X, Y]`: modifying at index 2 with two
rows overwrites `Y` and appends the second row. -/
theorem modify_overwrites_then_appends_witness :
    ∃ s', updateData [["P"], ["Q"]] Operation.Modify 2 sampleXXY = UpdateResult.ok s' ∧
      s'.m_Data = [["X"], ["X"], ["P"], ["Q"]] := by
  obtain ⟨s', h, g, -⟩ :=
    modify_overwrites_then_appends [["P"], ["Q"]] 2 sampleXXY (by decide) (by decide)
  exact ⟨s', h, by rw [g (by decide)]; decide⟩

/-! ## C6: the rows of the current page -/

theorem filterMap_range_slice (d : List Row) (a b : Nat) :
    (List.range d.length).filterMap
        (fun (i : Nat) => if a ≤ i ∧ i < b then d[i]? else none) =
      (d.take b).drop a := by
  induction d generalizing a b with
  | nil => simp
  | cons x xs ih =>
    rw [List.length_cons, List.range_succ_eq_map, List.filterMap_cons, List.filterMap_map]
    cases b with
    | zero => simp
    | succ b =>
      cases a with
      | zero =>
        have h := ih 0 b
        simp only [Nat.zero_le, true_and, List.drop_zero] at h
        simp only [Nat.zero_le, true_and, Nat.zero_lt_succ, if_true, List.getElem?_cons_zero,
          List.take_succ_cons, List.drop_zero]
        congr 1
        rw [← h]
        apply List.filterMap_congr
        intro i _
        simp only [Function.comp, Nat.succ_lt_succ_iff, Nat.add_lt_add_iff_right,
          List.getElem?_cons_succ]
      | succ a =>
        have h := ih a b
        simp only [Nat.le_zero_eq, Nat.succ_ne_zero, false_and, if_false,
          List.take_succ_cons, List.drop_succ_cons]
        rw [← h]
        apply List.filterMap_congr
        intro i _
        simp only [Function.comp, Nat.succ_le_succ_iff, Nat.add_le_add_iff_right,
          Nat.add_lt_add_iff_right, Nat.succ_lt_succ_iff, Nat.succ_eq_add_one,
          List.getElem?_cons_succ]

theorem specPageSlice_eq (d : List Row) (cp ps : Int) :
    specPageSlice d cp ps =
      (d.take (min (cp * ps) (d.length : Int)).toNat).drop ((cp - 1) * ps).toNat := by
  rw [← filterMap_range_slice]
  unfold specPageSlice
  apply List.filterMap_congr
  intro i _
  generalize (cp - 1) * ps = lo
  generalize min (cp * ps) (d.length : Int) = hi
  have : ((lo ≤ (i : Int) ∧ (i : Int) < hi) ↔ (lo.toNat ≤ i ∧ i < hi.toNat)) := by omega
  simp only [this]

theorem qlistMid_eq (d : List Row) (lo ps : Int) (hps : 0 < ps)
    (hlen : (d.length : Int) < 2147483648) :
    qlistMid d lo (min (lo + ps) (d.length : Int) - lo) =
      (d.take (min (lo + ps) (d.length : Int)).toNat).drop lo.toNat := by
  unfold qlistMid
  simp only
  split
  · rw [List.drop_eq_nil_of_le]
    simp only [List.length_take]; omega
  · split
    · have hz : lo.toNat = 0 := by omega
      rw [hz, List.drop_zero]
      have e : min (lo + ps) (d.length : Int) - lo + lo = min (lo + ps) (d.length : Int) := by
        omega
      rw [e]
      split
      · rw [List.take_of_length_le]; omega
      · split
        · have : (min (lo + ps) (d.length : Int)).toNat = 0 := by omega
          rw [this, List.take_zero]
        · rfl
    · rw [if_neg (by omega), List.drop_take]
      congr 1
      omega

/-- C6: for a positive page size (and a dataset whose size is a C++ `int`),
`getCurrentPageData` returns the entries of `m_Data` at the indices `i` with
`(current_page-1)*page_size ≤ i < min(current_page*page_size, n)`, in dataset
order; it returns the empty list when the page starts at or beyond the end of
the data, and so for a table without records. -/
theorem getCurrentPageData_eq_specPageSlice (s : State) (hps : 0 < s.m_PageSize)
    (hlen : (s.m_Data.length : Int) < 2147483648) :
    getCurrentPageData s = specPageSlice s.m_Data s.m_CurrentPage s.m_PageSize ∧
      ((s.m_Data.length : Int) ≤ (s.m_CurrentPage - 1) * s.m_PageSize →
        getCurrentPageData s = []) ∧
      (s.m_Data = [] → getCurrentPageData s = []) := by
  have hmain : getCurrentPageData s =
      (s.m_Data.take
        (min ((s.m_CurrentPage - 1) * s.m_PageSize + s.m_PageSize)
          (s.m_Data.length : Int)).toNat).drop ((s.m_CurrentPage - 1) * s.m_PageSize).toNat := by
    unfold getCurrentPageData
    exact qlistMid_eq s.m_Data _ s.m_PageSize hps hlen
  have hmul : s.m_CurrentPage * s.m_PageSize =
      (s.m_CurrentPage - 1) * s.m_PageSize + s.m_PageSize := by ring
  refine ⟨?_, ?_, ?_⟩
  · rw [hmain, specPageSlice_eq, hmul]
  · intro h
    rw [hmain, List.drop_eq_nil_of_le]
    simp only [List.length_take]; omega
  · intro h
    rw [hmain, h]; simp

/-- Witness of C6: page 1 of the table built on `[X, X, Y]` with page size 25
is the whole dataset. -/
theorem getCurrentPageData_eq_specPageSlice_witness :
    getCurrentPageData sampleXXY = [["X"], ["X"], ["Y"]] := by
  rw [(getCurrentPageData_eq_specPageSlice sampleXXY (by decide) (by decide)).1]
  decide

/-! ## C7 and C8: the tests on the requested page -/

/-- The prev and next buttons are disabled by comparing the requested page,
not the stored one, with 1 and with the page count; the signal carries the
requested page. -/
theorem setCurrentPage_requested (page : Int) (s s' : State)
    (h : setCurrentPage page s = some s') :
    (s'.prevCheckable = false ↔ page = 1) ∧
      (s'.nextCheckable = false ↔ page = s'.m_PageCount) ∧
      s'.emitted.getLast? = some page ∧ s'.pageLineEditText = page := by
  obtain ⟨-, g2, -, -, -, -, -, -, g9, g10, g11, -⟩ := setCurrentPage_fields page s s' h
  refine ⟨?_, ?_, ?_, ?_⟩
  · rw [g9]; split <;> simp [*]
  · rw [g10, g2]; split <;> simp [*]
  · rw [g11]; simp
  · rw [setCurrentPage_eq] at h
    split at h
    · have h' := Option.some.inj h
      subst h'
      show (afterLoop (storePage page s) s.bodyBtnTexts.length).pageLineEditText = page
      unfold afterLoop; split <;> rfl
    · cases h

/-- C7, at the failing input: on the table of 20 pages, `setCurrentPage(25)`
stores current page 20, the last page, and leaves the next button enabled
(checkable). For the requests 1 and 20 the buttons are as the claim says. -/
theorem next_enabled_on_last_page_after_request_past_end :
    construct (List.replicate 500 []) 25 10 false false = some sampleTwentyPages ∧
      setCurrentPage 25 sampleTwentyPages = some sampleTwentyPagesAt25 ∧
      sampleTwentyPagesAt25.m_CurrentPage = 20 ∧ sampleTwentyPagesAt25.m_PageCount = 20 ∧
      sampleTwentyPagesAt25.nextCheckable = true ∧
      (setCurrentPage 1 sampleTwentyPages).map (fun s => (s.prevCheckable, s.nextCheckable)) =
        some (false, true) ∧
      (setCurrentPage 20 sampleTwentyPages).map (fun s => s.nextCheckable) = some false :=
  ⟨construct_sampleTwentyPages, setCurrentPage_sampleTwentyPages, rfl, rfl, rfl,
    by decide, by decide⟩

/-- C8, at the failing input: on the table of 20 pages, the signal emitted by
`setCurrentPage(25)` carries 25, while the current page after the call is 20. -/
theorem signal_carries_request_past_end :
    setCurrentPage 25 sampleTwentyPages = some sampleTwentyPagesAt25 ∧
      sampleTwentyPagesAt25.emitted = sampleTwentyPages.emitted ++ [25] ∧
      sampleTwentyPagesAt25.m_CurrentPage = 20 :=
  ⟨setCurrentPage_sampleTwentyPages, rfl, rfl⟩

/-! ## C9: idempotence of `setCurrentPage` -/

theorem finishPage_finishPage (p : Int) (t : State) :
    finishPage p (finishPage p t) =
      { finishPage p t with emitted := (finishPage p t).emitted ++ [p] } := rfl

theorem storePage_finishPage_afterLoop (p : Int) (s : State) (n : Nat) :
    storePage p (finishPage p (afterLoop (storePage p s) n)) =
      finishPage p (afterLoop (storePage p s) n) := by
  unfold afterLoop
  split <;> rfl

theorem afterLoop_pos (t : State) (n : Nat) (h0 : ¬ n = 0) :
    afterLoop t n =
      { t with
        m_ShowPrevMore := showPrevMoreOf t
        m_ShowNextMore := showNextMoreOf t
        bodyBtnTexts := (pagesArray t).take n ++ t.bodyBtnTexts.drop n } := by
  unfold afterLoop
  rw [if_neg h0]

theorem afterLoop_afterLoop (a : State) (n : Nat) (hn : n = a.bodyBtnTexts.length)
    (hle : n ≤ (pagesArray a).length) : afterLoop (afterLoop a n) n = afterLoop a n := by
  by_cases h0 : n = 0
  · subst h0; rfl
  · obtain ⟨f1, f2, f3, f4, f5⟩ := afterLoop_fields a n hle (by omega)
    obtain ⟨c1, c2, c3⟩ := pagesArray_congr a (afterLoop a n) f1 f2 f3 f4 f5
    have hb : (afterLoop a n).bodyBtnTexts = (pagesArray a).take n := by
      simp only [afterLoop, h0, if_false]
      rw [List.drop_eq_nil_of_le (by omega), List.append_nil]
    have hd : (afterLoop a n).bodyBtnTexts.drop n = [] :=
      List.drop_eq_nil_of_le (by omega)
    have e : afterLoop (afterLoop a n) n =
        { afterLoop a n with
          m_ShowPrevMore := showPrevMoreOf (afterLoop a n)
          m_ShowNextMore := showNextMoreOf (afterLoop a n)
          bodyBtnTexts := (pagesArray (afterLoop a n)).take n ++
            (afterLoop a n).bodyBtnTexts.drop n } := by
      exact afterLoop_pos (afterLoop a n) n h0
    have hp : (afterLoop a n).m_ShowPrevMore = showPrevMoreOf a := by
      simp only [afterLoop, h0, if_false]
    have hq : (afterLoop a n).m_ShowNextMore = showNextMoreOf a := by
      simp only [afterLoop, h0, if_false]
    rw [e, c1, c2, c3, hd, List.append_nil, ← hb, ← hp, ← hq]

theorem afterLoop_finishPage (p : Int) (t : State) (n : Nat) (hfix : afterLoop t n = t) :
    afterLoop (finishPage p t) n = finishPage p t := by
  by_cases h0 : n = 0
  · subst h0; rfl
  · obtain ⟨c1, c2, c3⟩ := pagesArray_congr t (finishPage p t) rfl rfl rfl rfl rfl
    have e := afterLoop_pos t n h0
    rw [hfix] at e
    have hp : t.m_ShowPrevMore = showPrevMoreOf t := congrArg State.m_ShowPrevMore e
    have hq : t.m_ShowNextMore = showNextMoreOf t := congrArg State.m_ShowNextMore e
    have hb : t.bodyBtnTexts = (pagesArray t).take n ++ t.bodyBtnTexts.drop n :=
      congrArg State.bodyBtnTexts e
    rw [afterLoop_pos _ n h0, c1, c2, c3]
    show ({ finishPage p t with
      m_ShowPrevMore := showPrevMoreOf t
      m_ShowNextMore := showNextMoreOf t
      bodyBtnTexts := (pagesArray t).take n ++ t.bodyBtnTexts.drop n } : State) = finishPage p t
    rw [← hp, ← hq, ← hb]
    rfl

/-- C9: when `setCurrentPage(p)` returns, a second `setCurrentPage(p)` returns
too and changes nothing but the list of emitted signals, so the pagination
state (current page, both ellipsis flags, visible page numbers, prev and next
enabled flags, page and button counts) is the one left by the first call. In
every reachable state the first call does return. -/
theorem setCurrentPage_idempotent (p : Int) (s : State) :
    (Reachable s → ∃ s1, setCurrentPage p s = some s1) ∧
      ∀ s1, setCurrentPage p s = some s1 →
        ∃ s2, setCurrentPage p s1 = some s2 ∧
          s2 = { s1 with emitted := s1.emitted ++ [p] } ∧
          paginationState s2 = paginationState s1 := by
  constructor
  · intro hr
    exact setCurrentPage_total p s (reachable_inv s hr).2.2.2.2.2
  · intro s1 h
    rw [setCurrentPage_eq] at h
    split at h
    · rename_i hle
      have h' := Option.some.inj h
      subst h'
      have hlen : (storePage p s).bodyBtnTexts.length = s.bodyBtnTexts.length := rfl
      obtain ⟨f1, f2, f3, f4, f5⟩ :=
        afterLoop_fields (storePage p s) s.bodyBtnTexts.length hle (by rw [hlen])
      obtain ⟨-, -, c3⟩ := pagesArray_congr (storePage p s)
        (finishPage p (afterLoop (storePage p s) s.bodyBtnTexts.length)) f1 f2 f3 f4 f5
      have hl2 :
          (finishPage p (afterLoop (storePage p s) s.bodyBtnTexts.length)).bodyBtnTexts.length =
            s.bodyBtnTexts.length := f5
      rw [setCurrentPage_eq, storePage_finishPage_afterLoop, c3, hl2, if_pos hle,
        afterLoop_finishPage _ _ _ (afterLoop_afterLoop _ _ hlen.symm hle),
        finishPage_finishPage]
      exact ⟨_, rfl, rfl, rfl⟩
    · cases h

/-- Witness of C9 on the table of 20 pages: `setCurrentPage(25)` returns, and
a second `setCurrentPage(25)` leaves the same pagination state. -/
theorem setCurrentPage_idempotent_witness :
    setCurrentPage 25 sampleTwentyPages = some sampleTwentyPagesAt25 ∧
      ∃ s2, setCurrentPage 25 sampleTwentyPagesAt25 = some s2 ∧
        paginationState s2 = paginationState sampleTwentyPagesAt25 := by
  obtain ⟨s2, h2, -, hv⟩ := (setCurrentPage_idempotent 25 sampleTwentyPages).2
    sampleTwentyPagesAt25 setCurrentPage_sampleTwentyPages
  exact ⟨setCurrentPage_sampleTwentyPages, s2, h2, hv⟩

/-! ## C10: no ellipsis when all pages fit -/

/-- After a completed `setCurrentPage` on a table with body buttons, the
stored flags are those that `updatePages` computes in the new state. -/
theorem setCurrentPage_fresh (page : Int) (s s' : State)
    (h : setCurrentPage page s = some s') (hn : 0 < s'.bodyBtnTexts.length) :
    s'.m_ShowPrevMore = showPrevMoreOf s' ∧ s'.m_ShowNextMore = showNextMoreOf s' := by
  obtain ⟨g1, g2, g3, g4, -, -, -, g8, -⟩ := setCurrentPage_fields page s s' h
  obtain ⟨f1, f2, -⟩ := setCurrentPage_flags page s s' h (by omega)
  obtain ⟨c1, c2, -⟩ := pagesArray_congr (storePage page s) s' g3 g1 g2 g4 g8
  rw [f1, f2, c1, c2]
  exact ⟨rfl, rfl⟩

/-- Every reachable state is the result of a completed `setCurrentPage`. -/
theorem reachable_setCurrentPage (s : State) (hr : Reachable s) :
    ∃ page t, setCurrentPage page t = some s := by
  have hinit : ∀ s t, initializeNav t = some s →
      ∃ page t', setCurrentPage page t' = some s := by
    intro s t ht
    unfold initializeNav at ht
    split at ht
    · cases ht
    · exact ⟨_, _, ht⟩
  induction hr with
  | construct data pageSize middleBtnCount prev0 next0 s hp hm h => exact hinit s _ h
  | updateData t s data operation index _ h _ =>
    unfold updateData at h
    split at h
    · cases h
    · simp only at h
      split at h
      · cases h
      · rename_i u hu
        have := UpdateResult.ok.inj h
        subst this
        exact hinit _ _ hu
  | setCurrentPage t s page _ h _ => exact ⟨page, t, h⟩

/-- With `1 ≤ page_count ≤ middle_button_count` and the button count of
`initialize`, `updatePages` computes both flags false, whatever the current
page. -/
theorem flags_false_of_fit (s : State) (hi : Inv s) (h2 : s.m_PageCount ≤ s.m_MiddleBtnCount) :
    showPrevMoreOf s = false ∧ showNextMoreOf s = false := by
  obtain ⟨-, -, -, -, i5, -⟩ := hi
  rw [if_pos h2] at i5
  constructor
  · unfold showPrevMoreOf
    simp only [decide_eq_false_iff_not, not_and]
    intro h; omega
  · unfold showNextMoreOf
    have : ¬ (s.m_PageCount > s.m_MiddleBtnCount) := by omega
    simp [this]

/-- C10: in every reachable state with `1 ≤ page_count ≤ middle_button_count`
both stored ellipsis flags are false, and for every requested page `c`
`setCurrentPage(c)` returns with both flags false and both ellipsis buttons
hidden. -/
theorem no_ellipsis_of_fit (s : State) (c : Int) (hr : Reachable s)
    (h1 : 1 ≤ s.m_PageCount) (h2 : s.m_PageCount ≤ s.m_MiddleBtnCount) :
    (s.m_ShowPrevMore = false ∧ s.m_ShowNextMore = false) ∧
      ∃ s', setCurrentPage c s = some s' ∧
        (updatePages (storePage c s)).2.m_ShowPrevMore = false ∧
        (updatePages (storePage c s)).2.m_ShowNextMore = false ∧
        s'.m_ShowPrevMore = false ∧ s'.m_ShowNextMore = false ∧
        s'.quickprevVisible = false ∧ s'.quicknextVisible = false := by
  have key : ∀ t, Reachable t → 1 ≤ t.m_PageCount → t.m_PageCount ≤ t.m_MiddleBtnCount →
      t.m_ShowPrevMore = false ∧ t.m_ShowNextMore = false := by
    intro t ht t1 t2
    have hi := reachable_inv t ht
    obtain ⟨page, u, hu⟩ := reachable_setCurrentPage t ht
    have hlen : 0 < t.bodyBtnTexts.length := by
      obtain ⟨-, -, -, -, i5, i6⟩ := hi
      rw [if_pos t2] at i5
      omega
    obtain ⟨f1, f2⟩ := setCurrentPage_fresh page u t hu hlen
    obtain ⟨e1, e2⟩ := flags_false_of_fit t hi t2
    exact ⟨by rw [f1, e1], by rw [f2, e2]⟩
  refine ⟨key s hr h1 h2, ?_⟩
  obtain ⟨s', h⟩ := setCurrentPage_total c s (reachable_inv s hr).2.2.2.2.2
  obtain ⟨-, g2, -, g4, -⟩ := setCurrentPage_fields c s s' h
  obtain ⟨v1, v2, -⟩ := setCurrentPage_visible c s s' h
  have hr' : Reachable s' := Reachable.setCurrentPage s s' c hr h
  obtain ⟨k1, k2⟩ := key s' hr' (by omega) (by omega)
  obtain ⟨e1, e2⟩ := flags_false_of_fit (storePage c s)
    (by
      obtain ⟨i1, i2, i3, i4, i5, i6⟩ := reachable_inv s hr
      exact ⟨i1, i2, i3, i4, i5, i6⟩) h2
  exact ⟨s', h, e1, e2, k1, k2, by rw [v1, k1], by rw [v2, k2]⟩

/-- Witness of C10 on the one-page table built on `[X, X, Y]`. -/
theorem no_ellipsis_of_fit_witness :
    Reachable sampleXXY ∧ sampleXXY.m_PageCount = 1 ∧ sampleXXY.m_MiddleBtnCount = 10 ∧
      sampleXXY.m_ShowPrevMore = false ∧ sampleXXY.m_ShowNextMore = false ∧
      ∃ s', setCurrentPage 1 sampleXXY = some s' ∧ s'.m_ShowPrevMore = false ∧
        s'.m_ShowNextMore = false := by
  have hr : Reachable sampleXXY :=
    Reachable.construct [["X"], ["X"], ["Y"]] 25 10 false false sampleXXY (by decide)
      (by decide) construct_sampleXXY
  obtain ⟨⟨a, b⟩, s', h, -, -, k1, k2, -⟩ :=
    no_ellipsis_of_fit sampleXXY 1 hr (by decide) (by decide)
  exact ⟨hr, rfl, rfl, a, b, s', h, k1, k2⟩

/-! ## More on the reachable states -/

set_option maxRecDepth 20000 in
theorem setCurrentPage_sampleTwentyPages_ten :
    setCurrentPage 10 sampleTwentyPages = some sampleTwentyPagesAt10 := by
  decide

set_option maxRecDepth 20000 in
theorem construct_sampleTwelvePages :
    construct (List.replicate 300 []) 25 10 false false = some sampleTwelvePages := by
  decide

set_option maxRecDepth 20000 in
theorem setCurrentPage_sampleTwelvePages :
    setCurrentPage 12 sampleTwelvePages = some sampleTwelvePagesAt12 := by
  decide

theorem reachable_sampleTwentyPages : Reachable sampleTwentyPages :=
  Reachable.construct (List.replicate 500 []) 25 10 false false sampleTwentyPages
    (by decide) (by decide) construct_sampleTwentyPages

theorem reachable_sampleTwentyPagesAt10 : Reachable sampleTwentyPagesAt10 :=
  Reachable.setCurrentPage sampleTwentyPages sampleTwentyPagesAt10 10
    reachable_sampleTwentyPages setCurrentPage_sampleTwentyPages_ten

theorem reachable_sampleTwelvePagesAt12 : Reachable sampleTwelvePagesAt12 :=
  Reachable.setCurrentPage sampleTwelvePages sampleTwelvePagesAt12 12
    (Reachable.construct (List.replicate 300 []) 25 10 false false sampleTwelvePages
      (by decide) (by decide) construct_sampleTwelvePages)
    setCurrentPage_sampleTwelvePages

theorem mem_forRange (lo hi x : Int) : x ∈ forRange lo hi ↔ lo ≤ x ∧ x < hi := by
  unfold forRange
  simp only [List.mem_map, List.mem_range]
  constructor
  · rintro ⟨k, hk, rfl⟩
    omega
  · intro h
    exact ⟨(x - lo).toNat, by omega, by omega⟩

/-- In a reachable state with body buttons, the stored flags are those of
`updatePages` and the body buttons carry the first entries of its list. -/
theorem reachable_texts (s : State) (hr : Reachable s) (hn : 0 < s.bodyBtnTexts.length) :
    s.m_ShowPrevMore = showPrevMoreOf s ∧ s.m_ShowNextMore = showNextMoreOf s ∧
      s.bodyBtnTexts = (pagesArray s).take s.bodyBtnTexts.length := by
  obtain ⟨page, u, hu⟩ := reachable_setCurrentPage s hr
  obtain ⟨g1, g2, g3, g4, -, -, -, g8, -⟩ := setCurrentPage_fields page u s hu
  obtain ⟨f1, f2, f3⟩ := setCurrentPage_flags page u s hu (by omega)
  obtain ⟨c1, c2, c3⟩ := pagesArray_congr (storePage page u) s g3 g1 g2 g4 g8
  refine ⟨by rw [f1, c1], by rw [f2, c2], ?_⟩
  rw [c3, g8]
  exact f3

/-- In a reachable state the first-page button is visible when the left flag
is set or the body buttons reach the page before the last, and the last-page
button is visible when the right flag is set. -/
theorem reachable_visible (s : State) (hr : Reachable s) :
    s.startBtnVisible =
        (s.m_ShowPrevMore || decide (btnGroupSize s - 2 = s.m_PageCount - 1)) ∧
      s.endBtnVisible = s.m_ShowNextMore := by
  obtain ⟨page, u, hu⟩ := reachable_setCurrentPage s hr
  rw [setCurrentPage_eq] at hu
  split at hu
  · have h' := Option.some.inj hu
    subst h'
    exact ⟨rfl, rfl⟩
  · cases hu

/-- In a reachable state with at least one page the current page is a page. -/
theorem reachable_currentPage (s : State) (hr : Reachable s) (hpc : 1 ≤ s.m_PageCount) :
    1 ≤ s.m_CurrentPage ∧ s.m_CurrentPage ≤ s.m_PageCount := by
  obtain ⟨page, u, hu⟩ := reachable_setCurrentPage s hr
  obtain ⟨g1, g2, -⟩ := setCurrentPage_fields page u s hu
  rw [g1]
  rw [g2] at hpc
  constructor
  · split <;> [omega; (split <;> omega)]
  · rw [g2]; split <;> [omega; (split <;> omega)]

/-- Every configuration of the claims is reached: for `middle_button_count ≥ 1`,
`page_count ≥ 1` and a current page in `[1, page_count]` there is a reachable
state with these values. -/
theorem reachable_of_config (m pc c : Int) (hm : 1 ≤ m) (hpc : 1 ≤ pc)
    (hc1 : 1 ≤ c) (hc2 : c ≤ pc) :
    ∃ s, Reachable s ∧ s.m_MiddleBtnCount = m ∧ s.m_PageCount = pc ∧
      s.m_CurrentPage = c := by
  obtain ⟨s0, h0, g1, -, -, g4, -⟩ :=
    construct_spec (List.replicate pc.toNat []) 1 m false false (by decide)
  have hr0 : Reachable s0 := Reachable.construct _ 1 m false false s0 (by decide) hm h0
  have hpc0 : s0.m_PageCount = pc := by
    rw [g1, List.length_replicate]
    unfold specTotalPages
    simp only [Int.cast_one, div_one, Int.ceil_natCast]
    omega
  obtain ⟨s, h⟩ := setCurrentPage_total c s0 (reachable_inv s0 hr0).2.2.2.2.2
  obtain ⟨e1, e2, -, e4, -⟩ := setCurrentPage_fields c s0 s h
  refine ⟨s, Reachable.setCurrentPage s0 s c hr0 h, by rw [e4, g4], by rw [e2, hpc0], ?_⟩
  rw [e1, hpc0, if_neg (by omega), if_neg (by omega)]

/-! ## C11: length of the list of `updatePages` -/

/-- C11 as stated fails: on the table of 20 pages with 10 middle buttons and
current page 10 (both ellipses), the list of `updatePages` has 11 entries,
while `visible_button_count - 2 = min(20, 10) = 10`. -/
theorem pagesArray_length_both_even :
    Reachable sampleTwentyPagesAt10 ∧ sampleTwentyPagesAt10.m_MiddleBtnCount = 10 ∧
      sampleTwentyPagesAt10.m_PageCount = 20 ∧ sampleTwentyPagesAt10.m_CurrentPage = 10 ∧
      (updatePages sampleTwentyPagesAt10).1 = [5, 6, 7, 8, 9, 10, 11, 12, 13, 14, 15] ∧
      ((updatePages sampleTwentyPagesAt10).1.length : Int) ≠
        sampleTwentyPagesAt10.m_PageBtnCount - 2 ∧
      sampleTwentyPagesAt10.m_PageBtnCount - 2 = min 20 10 :=
  ⟨reachable_sampleTwentyPagesAt10, rfl, rfl, rfl, by decide, by decide, by decide⟩

/-- C11, amended: in every reachable state with at least one page,
`visible_button_count - 2 = min(page_count, middle_button_count)`; the list of
`updatePages` has exactly that many entries unless both ellipses are shown;
with both ellipses it has `2 * floor(visible_button_count / 2) - 1` entries,
which is `visible_button_count - 2` for an odd and `visible_button_count - 1`
for an even button count; the body buttons are `visible_button_count - 2` many
and carry the first entries of the list. -/
theorem pagesArray_length_cases (s : State) (hr : Reachable s) (hpc : 1 ≤ s.m_PageCount) :
    s.m_PageBtnCount - 2 = min s.m_PageCount s.m_MiddleBtnCount ∧
      (¬(showPrevMoreOf s = true ∧ showNextMoreOf s = true) →
        ((updatePages s).1.length : Int) = s.m_PageBtnCount - 2) ∧
      (showPrevMoreOf s = true ∧ showNextMoreOf s = true →
        ((updatePages s).1.length : Int) = 2 * s.m_PageBtnCount.tdiv 2 - 1 ∧
        (s.m_PageBtnCount % 2 = 1 →
          ((updatePages s).1.length : Int) = s.m_PageBtnCount - 2) ∧
        (s.m_PageBtnCount % 2 = 0 →
          ((updatePages s).1.length : Int) = s.m_PageBtnCount - 1)) ∧
      ((s.bodyBtnTexts.length : Int) = s.m_PageBtnCount - 2 ∧
        s.bodyBtnTexts = (updatePages s).1.take s.bodyBtnTexts.length) := by
  obtain ⟨-, i2, -, -, i5, i6⟩ := reachable_inv s hr
  have hpbc : s.m_PageBtnCount - 2 = min s.m_PageCount s.m_MiddleBtnCount := by
    rw [i5]; split <;> omega
  have hpos : 3 ≤ s.m_PageBtnCount := by omega
  have hdiv : s.m_PageBtnCount.tdiv 2 = s.m_PageBtnCount / 2 :=
    Int.tdiv_eq_ediv (by omega) (by decide)
  have hlen : 0 < s.bodyBtnTexts.length := by omega
  refine ⟨hpbc, ?_, ?_, by omega, (reachable_texts s hr hlen).2.2⟩
  · intro hnot
    show ((pagesArray s).length : Int) = _
    unfold pagesArray
    simp only
    split
    · rw [forRange_length]; omega
    · split
      · rw [List.length_map, forRange_length]; omega
      · split
        · rename_i hb
          exfalso
          apply hnot
          simpa using hb
        · rw [List.length_map, forRange_length]; omega
  · rintro ⟨hp, hn⟩
    have hl : ((pagesArray s).length : Int) = 2 * s.m_PageBtnCount.tdiv 2 - 1 := by
      unfold pagesArray
      simp only [hp, hn, Bool.not_true, Bool.and_false, Bool.and_self, Bool.false_and,
        if_true, if_false, Bool.false_eq_true]
      rw [forRange_length, hdiv]; omega
    refine ⟨hl, ?_, ?_⟩
    · intro hodd
      show ((pagesArray s).length : Int) = _
      rw [hl, hdiv]; omega
    · intro heven
      show ((pagesArray s).length : Int) = _
      rw [hl, hdiv]; omega

/-- Witness of C11 amended, on the table of 20 pages at page 10 (both
ellipses, 12 page buttons): 11 entries, of which the 10 body buttons carry the
first 10. -/
theorem pagesArray_length_cases_witness :
    ((updatePages sampleTwentyPagesAt10).1.length : Int) =
        sampleTwentyPagesAt10.m_PageBtnCount - 1 ∧
      (sampleTwentyPagesAt10.bodyBtnTexts.length : Int) =
        sampleTwentyPagesAt10.m_PageBtnCount - 2 := by
  obtain ⟨-, -, h3, h4, -⟩ :=
    pagesArray_length_cases sampleTwentyPagesAt10 reachable_sampleTwentyPagesAt10 (by decide)
  exact ⟨(h3 (by decide)).2.2 (by decide), h4⟩

/-! ## C12: the window with the right ellipsis only -/

/-- C12 as stated fails: on the table of 20 pages with 10 middle buttons at
page 1, only the right ellipsis is set and `page_count > middle_button_count`,
but the list of `updatePages` and the body buttons are the pages 1 to 10, not
the pages 2 to `visible_button_count - 1 = 11`. -/
theorem next_only_window_not_from_two :
    Reachable sampleTwentyPages ∧
      sampleTwentyPages.m_ShowNextMore = true ∧ sampleTwentyPages.m_ShowPrevMore = false ∧
      sampleTwentyPages.m_PageCount > sampleTwentyPages.m_MiddleBtnCount ∧
      (updatePages sampleTwentyPages).1 = [1, 2, 3, 4, 5, 6, 7, 8, 9, 10] ∧
      sampleTwentyPages.bodyBtnTexts = [1, 2, 3, 4, 5, 6, 7, 8, 9, 10] ∧
      forRange 2 sampleTwentyPages.m_PageBtnCount = [2, 3, 4, 5, 6, 7, 8, 9, 10, 11] ∧
      (updatePages sampleTwentyPages).1 ≠ forRange 2 sampleTwentyPages.m_PageBtnCount :=
  ⟨reachable_sampleTwentyPages, rfl, rfl, by decide, by decide, rfl, by decide, by decide⟩

theorem forRange_map_pred (lo hi : Int) :
    (forRange lo hi).map (fun i => i - 1) = forRange (lo - 1) (hi - 1) := by
  unfold forRange
  rw [List.map_map]
  have h : hi - 1 - (lo - 1) = hi - lo := by omega
  rw [h]
  apply List.map_congr_left
  intro k _
  simp only [Function.comp]
  omega

/-- C12, amended: in every reachable state with
`page_count > middle_button_count` in which the right ellipsis is set and the
left one is not, the list of `updatePages` and the texts of the body buttons
are the consecutive pages `1, 2, ..., visible_button_count - 2` (the values of
`i` in `for (i = 1; i < visible_button_count - 1; i++)`), that is the pages 1
to `middle_button_count`; the first-page button is hidden and the last-page
button is visible. -/
theorem next_only_window_from_one (s : State) (hr : Reachable s)
    (hgt : s.m_PageCount > s.m_MiddleBtnCount)
    (hn : s.m_ShowNextMore = true) (hp : s.m_ShowPrevMore = false) :
    (updatePages s).1 = forRange 1 (s.m_PageBtnCount - 1) ∧
      s.bodyBtnTexts = forRange 1 (s.m_PageBtnCount - 1) ∧
      s.m_PageBtnCount - 2 = s.m_MiddleBtnCount ∧
      s.startBtnVisible = false ∧ s.endBtnVisible = true := by
  obtain ⟨-, i2, -, -, i5, i6⟩ := reachable_inv s hr
  rw [if_neg (by omega)] at i5
  have hlen : 0 < s.bodyBtnTexts.length := by omega
  obtain ⟨f1, f2, f3⟩ := reachable_texts s hr hlen
  obtain ⟨v1, v2⟩ := reachable_visible s hr
  rw [hp] at f1
  rw [hn] at f2
  have harr : pagesArray s = forRange 1 (s.m_PageBtnCount - 1) := by
    unfold pagesArray
    simp only [← f1, ← f2, Bool.not_true, Bool.not_false, Bool.and_false, Bool.and_true,
      Bool.false_and, Bool.and_self, if_true, if_false, Bool.false_eq_true]
    rw [forRange_map_pred]
    rfl
  have hlast : btnGroupSize s - 2 ≠ s.m_PageCount - 1 := by
    have h := f2.symm
    unfold showNextMoreOf at h
    simp only [Bool.and_eq_true, decide_eq_true_eq] at h
    exact h.1.2
  refine ⟨harr, ?_, by omega, ?_, by rw [v2, hn]⟩
  · rw [f3, harr, List.take_of_length_le]
    rw [forRange_length]; omega
  · rw [v1, hp]
    simp [hlast]

/-- Witness of C12 amended, on the table of 20 pages at page 1: the body
buttons carry the pages 1 to 10. -/
theorem next_only_window_from_one_witness :
    sampleTwentyPages.bodyBtnTexts = [1, 2, 3, 4, 5, 6, 7, 8, 9, 10] ∧
      sampleTwentyPages.startBtnVisible = false := by
  obtain ⟨-, h2, -, h4, -⟩ :=
    next_only_window_from_one sampleTwentyPages reachable_sampleTwentyPages
      (by decide) (by decide) (by decide)
  exact ⟨by rw [h2]; decide, h4⟩

/-! ## C13: a button for the current page -/

theorem take_forRange (lo hi : Int) (k : Nat) :
    (forRange lo hi).take k = forRange lo (min hi (lo + k)) := by
  unfold forRange
  rw [← List.map_take, List.take_range]
  congr 2
  omega

theorem showPrevMoreOf_iff (s : State) (h : 1 ≤ s.m_PageBtnCount) :
    showPrevMoreOf s = true ↔
      (s.m_PageCount > s.m_PageBtnCount ∧
        s.m_CurrentPage > s.m_PageBtnCount - (s.m_PageBtnCount - 1) / 2) := by
  unfold showPrevMoreOf
  simp only [decide_eq_true_eq]
  rw [Int.tdiv_eq_ediv (by omega) (by decide)]

theorem showNextMoreOf_iff (s : State) (h : 1 ≤ s.m_PageBtnCount) :
    showNextMoreOf s = true ↔
      (s.m_PageCount > s.m_MiddleBtnCount ∧
        (s.bodyBtnTexts.length : Int) ≠ s.m_PageCount - 1 ∧
        s.m_CurrentPage < s.m_PageCount - (s.m_PageBtnCount - 1) / 2) := by
  unfold showNextMoreOf btnGroupSize
  simp only [Bool.and_eq_true, decide_eq_true_eq]
  rw [Int.tdiv_eq_ediv (by omega) (by decide)]
  constructor
  · rintro ⟨⟨a, b⟩, c⟩
    exact ⟨a, by omega, c⟩
  · rintro ⟨a, b, c⟩
    exact ⟨⟨a, by omega⟩, c⟩

/-- The list of `updatePages`, branch by branch, in terms of the two flags. -/
theorem pagesArray_cases (s : State) :
    (showPrevMoreOf s = true → showNextMoreOf s = false →
        pagesArray s =
          forRange (s.m_PageCount - (s.m_PageBtnCount - 2) + 1) (s.m_PageCount + 1)) ∧
      (showPrevMoreOf s = false → showNextMoreOf s = true →
        pagesArray s = forRange 1 (s.m_PageBtnCount - 1)) ∧
      (showPrevMoreOf s = true → showNextMoreOf s = true →
        pagesArray s =
          forRange (s.m_CurrentPage - (s.m_PageBtnCount.tdiv 2 - 1))
            (s.m_CurrentPage + (s.m_PageBtnCount.tdiv 2 - 1) + 1)) ∧
      (showPrevMoreOf s = false → showNextMoreOf s = false →
        s.m_PageCount ≤ s.m_MiddleBtnCount →
        pagesArray s = forRange 1 (s.m_PageBtnCount - 1)) ∧
      (showPrevMoreOf s = false → showNextMoreOf s = false →
        ¬ s.m_PageCount ≤ s.m_MiddleBtnCount →
        pagesArray s = forRange 2 s.m_PageBtnCount) := by
  refine ⟨?_, ?_, ?_, ?_, ?_⟩
  · intro hp hn
    unfold pagesArray
    simp [hp, hn]
  · intro hp hn
    unfold pagesArray
    simp only [hp, hn, Bool.not_true, Bool.not_false, Bool.and_false, Bool.and_true,
      Bool.false_and, Bool.and_self, if_true, if_false, Bool.false_eq_true]
    rw [forRange_map_pred]
    rfl
  · intro hp hn
    unfold pagesArray
    simp [hp, hn]
  · intro hp hn hle
    unfold pagesArray
    simp only [hp, hn, Bool.not_true, Bool.not_false, Bool.and_false, Bool.and_true,
      Bool.false_and, Bool.and_self, if_true, if_false, Bool.false_eq_true, hle]
    rw [forRange_map_pred]
    rfl
  · intro hp hn hle
    unfold pagesArray
    simp only [hp, hn, Bool.not_true, Bool.not_false, Bool.and_false, Bool.and_true,
      Bool.false_and, Bool.and_self, if_true, if_false, Bool.false_eq_true, hle]
    simp

/-- Where C13 holds: in a reachable state with at least three middle buttons
the current page has a visible button, unless the table has exactly
`middle_button_count + 2` pages and the current page is the last one. -/
theorem currentPageShown_of_three (s : State) (hr : Reachable s) (hpc : 1 ≤ s.m_PageCount)
    (hm : 3 ≤ s.m_MiddleBtnCount)
    (hne : ¬(s.m_PageCount = s.m_MiddleBtnCount + 2 ∧ s.m_CurrentPage = s.m_PageCount)) :
    currentPageShown s := by
  obtain ⟨-, -, -, -, i5, i6⟩ := reachable_inv s hr
  obtain ⟨hc1, hc2⟩ := reachable_currentPage s hr hpc
  have hpbc : 3 ≤ s.m_PageBtnCount := by rw [i5]; split <;> omega
  have hlen : 0 < s.bodyBtnTexts.length := by omega
  obtain ⟨f1, f2, f3⟩ := reachable_texts s hr hlen
  obtain ⟨v1, v2⟩ := reachable_visible s hr
  have hP := showPrevMoreOf_iff s (by omega)
  have hN := showNextMoreOf_iff s (by omega)
  have hdiv : s.m_PageBtnCount.tdiv 2 = s.m_PageBtnCount / 2 :=
    Int.tdiv_eq_ediv (by omega) (by decide)
  obtain ⟨b1, b2, b3, b4, b5⟩ := pagesArray_cases s
  unfold currentPageShown
  rw [f3, v1, v2, f1, f2]
  unfold btnGroupSize
  cases hp : showPrevMoreOf s <;> cases hn : showNextMoreOf s
  · -- no ellipsis
    have hP' : ¬(s.m_PageCount > s.m_PageBtnCount ∧
        s.m_CurrentPage > s.m_PageBtnCount - (s.m_PageBtnCount - 1) / 2) := by
      rw [← hP, hp]; simp
    have hN' : ¬(s.m_PageCount > s.m_MiddleBtnCount ∧
        (s.bodyBtnTexts.length : Int) ≠ s.m_PageCount - 1 ∧
        s.m_CurrentPage < s.m_PageCount - (s.m_PageBtnCount - 1) / 2) := by
      rw [← hN, hn]; simp
    by_cases hle : s.m_PageCount ≤ s.m_MiddleBtnCount
    · left
      rw [b4 hp hn hle, take_forRange, mem_forRange]
      rw [if_pos hle] at i5
      omega
    · rw [if_neg hle] at i5
      rw [b5 hp hn hle, take_forRange, mem_forRange]
      by_cases h1 : s.m_CurrentPage = 1
      · right; left
        refine ⟨h1, ?_⟩
        simp only [Bool.false_or, decide_eq_true_eq]
        omega
      · left
        omega
  · -- right ellipsis only
    have hP' : ¬(s.m_PageCount > s.m_PageBtnCount ∧
        s.m_CurrentPage > s.m_PageBtnCount - (s.m_PageBtnCount - 1) / 2) := by
      rw [← hP, hp]; simp
    have hN' := hN.mp hn
    rw [if_neg (by omega)] at i5
    left
    rw [b2 hp hn, take_forRange, mem_forRange]
    omega
  · -- left ellipsis only
    have hP' := hP.mp hp
    have hN' : ¬(s.m_PageCount > s.m_MiddleBtnCount ∧
        (s.bodyBtnTexts.length : Int) ≠ s.m_PageCount - 1 ∧
        s.m_CurrentPage < s.m_PageCount - (s.m_PageBtnCount - 1) / 2) := by
      rw [← hN, hn]; simp
    have hgt : ¬ s.m_PageCount ≤ s.m_MiddleBtnCount := by
      intro hle
      rw [if_pos hle] at i5
      omega
    rw [if_neg hgt] at i5
    left
    rw [b1 hp hn, take_forRange, mem_forRange]
    omega
  · -- both ellipses
    have hP' := hP.mp hp
    have hN' := hN.mp hn
    rw [if_neg (by omega)] at i5
    left
    rw [b3 hp hn, take_forRange, mem_forRange, hdiv]
    omega

/-- C13, at the failing input: the table of 12 pages with 10 middle buttons
shows, at page 1, the body buttons 1 to 10 and the last-page button; a click on
the last-page button (or `setCurrentPage(12)`) makes page 12 current, after
which the body buttons are 2 to 11 and both the first-page and the last-page
button are hidden: no visible button shows the current page. -/
theorem last_page_of_twelve_has_no_button :
    construct (List.replicate 300 []) 25 10 false false = some sampleTwelvePages ∧
      mouseButtonRelease (Watched.groupBtn 1) sampleTwelvePages = some sampleTwelvePagesAt12 ∧
      setCurrentPage 12 sampleTwelvePages = some sampleTwelvePagesAt12 ∧
      sampleTwelvePagesAt12.m_MiddleBtnCount = 10 ∧
      sampleTwelvePagesAt12.m_PageCount = 12 ∧ sampleTwelvePagesAt12.m_CurrentPage = 12 ∧
      sampleTwelvePagesAt12.bodyBtnTexts = [2, 3, 4, 5, 6, 7, 8, 9, 10, 11] ∧
      sampleTwelvePagesAt12.startBtnVisible = false ∧
      sampleTwelvePagesAt12.endBtnVisible = false ∧
      ¬ currentPageShown sampleTwelvePagesAt12 :=
  ⟨construct_sampleTwelvePages, setCurrentPage_sampleTwelvePages,
    setCurrentPage_sampleTwelvePages, rfl, rfl, rfl, rfl, rfl, rfl, by decide⟩

/-! ## C14: the page numbers of the list are pages -/

/-- C14: in every reachable state with at least one page, every number in the
list of `updatePages` lies in `[1, page_count]`, in each of the four ellipsis
cases; so does the text of every body button, and a click on a body button
makes that page the current one. -/
theorem pagesArray_pages_valid (s : State) (hr : Reachable s) (hpc : 1 ≤ s.m_PageCount) :
    (∀ x, x ∈ (updatePages s).1 → 1 ≤ x ∧ x ≤ s.m_PageCount) ∧
      ∀ k x, s.bodyBtnTexts[k]? = some x →
        1 ≤ x ∧ x ≤ s.m_PageCount ∧
          ∃ s', mouseButtonRelease (Watched.groupBtn (k + 2)) s = some s' ∧
            s'.m_CurrentPage = x := by
  obtain ⟨-, i2, -, -, i5, i6⟩ := reachable_inv s hr
  have hpbc : 3 ≤ s.m_PageBtnCount := by rw [i5]; split <;> omega
  have hlen : 0 < s.bodyBtnTexts.length := by omega
  obtain ⟨-, -, f3⟩ := reachable_texts s hr hlen
  have hP := showPrevMoreOf_iff s (by omega)
  have hN := showNextMoreOf_iff s (by omega)
  have hdiv : s.m_PageBtnCount.tdiv 2 = s.m_PageBtnCount / 2 :=
    Int.tdiv_eq_ediv (by omega) (by decide)
  obtain ⟨b1, b2, b3, b4, b5⟩ := pagesArray_cases s
  have hall : ∀ x, x ∈ pagesArray s → 1 ≤ x ∧ x ≤ s.m_PageCount := by
    intro x
    cases hp : showPrevMoreOf s <;> cases hn : showNextMoreOf s
    · by_cases hle : s.m_PageCount ≤ s.m_MiddleBtnCount
      · rw [b4 hp hn hle, mem_forRange]
        rw [if_pos hle] at i5
        omega
      · rw [b5 hp hn hle, mem_forRange]
        rw [if_neg hle] at i5
        omega
    · have hN' := hN.mp hn
      rw [if_neg (by omega)] at i5
      rw [b2 hp hn, mem_forRange]
      omega
    · have hP' := hP.mp hp
      rw [b1 hp hn, mem_forRange]
      omega
    · have hP' := hP.mp hp
      have hN' := hN.mp hn
      rw [b3 hp hn, mem_forRange, hdiv]
      omega
  refine ⟨hall, ?_⟩
  intro k x hk
  have hmem : x ∈ pagesArray s := by
    have h1 : x ∈ s.bodyBtnTexts := List.getElem?_mem hk
    rw [f3] at h1
    exact List.mem_of_mem_take h1
  obtain ⟨hx1, hx2⟩ := hall x hmem
  refine ⟨hx1, hx2, ?_⟩
  obtain ⟨s', h'⟩ := setCurrentPage_total x s i6
  obtain ⟨g1, -⟩ := setCurrentPage_fields x s s' h'
  refine ⟨s', ?_, ?_⟩
  · show (match groupBtnText s (k + 2) with
      | some newPage => setCurrentPage newPage s
      | none => some s) = some s'
    have : groupBtnText s (k + 2) = some x := hk
    rw [this]
    exact h'
  · rw [g1, if_neg (by omega), if_neg (by omega)]

/-- Witness of C14 on the table of 20 pages at page 10: the list is
`5, ..., 15`, and a click on the first body button makes page 5 current. -/
theorem pagesArray_pages_valid_witness :
    (∀ x, x ∈ (updatePages sampleTwentyPagesAt10).1 → 1 ≤ x ∧ x ≤ 20) ∧
      ∃ s', mouseButtonRelease (Watched.groupBtn 2) sampleTwentyPagesAt10 = some s' ∧
        s'.m_CurrentPage = 5 := by
  obtain ⟨h1, h2⟩ :=
    pagesArray_pages_valid sampleTwentyPagesAt10 reachable_sampleTwentyPagesAt10 (by decide)
  obtain ⟨-, -, s', hs', hc⟩ := h2 0 5 (by decide)
  exact ⟨h1, s', hs', hc⟩

/-! ## C15: `updatePages().at(k)` is in bounds -/

/-- C15: whatever the page count, the number of middle buttons and the current
page, `initialize` on a table with nonzero page size returns, having allocated
`m_PageBtnCount - 2` body buttons; in the state it leaves, for every requested
page the list of `updatePages` has at least `m_PageBtnCount - 2` entries, every
`updatePages().at(k)` with `k` below the body button count exists, and
`setCurrentPage` returns. -/
theorem updatePages_at_in_bounds (s0 : State) (page : Int) (hps : s0.m_PageSize ≠ 0) :
    ∃ s, initializeNav s0 = some s ∧
      s.bodyBtnTexts.length = (s.m_PageBtnCount - 2).toNat ∧
      (s.m_PageBtnCount - 2).toNat ≤ (updatePages (storePage page s)).1.length ∧
      (∀ k, k < getButtonsCount (storePage page s) →
        ∃ v, (updatePages (storePage page s)).1[k]? = some v) ∧
      ∃ s', setCurrentPage page s = some s' := by
  obtain ⟨s, h, -, -, g3, -⟩ := initializeNav_spec s0 hps
  have hge := pagesArray_length_ge (storePage page s)
  have hpb : (storePage page s).m_PageBtnCount = s.m_PageBtnCount := rfl
  rw [hpb] at hge
  refine ⟨s, h, g3, hge, ?_, setCurrentPage_total page s g3⟩
  intro k hk
  have hk' : k < (pagesArray (storePage page s)).length := by
    have : getButtonsCount (storePage page s) = s.bodyBtnTexts.length := rfl
    omega
  exact ⟨_, List.getElem?_eq_getElem hk'⟩

/-- The same in every reachable state: `setCurrentPage` and `updateData` never
reach the out-of-range branch. -/
theorem reachable_no_fault (s : State) (hr : Reachable s) (page : Int) (data : List Row)
    (operation : Operation) (index : Int) :
    (∃ s', setCurrentPage page s = some s') ∧
      updateData data operation index s ≠ UpdateResult.fault := by
  obtain ⟨i1, -, -, -, -, i6⟩ := reachable_inv s hr
  refine ⟨setCurrentPage_total page s i6, ?_⟩
  by_cases hv : operation = Operation.Modify ∧ index < 0
  · unfold updateData
    rw [if_pos hv]
    intro h; cases h
  · obtain ⟨s', h, -⟩ := updateData_ok data operation index s (by omega) hv
    rw [h]
    intro h'; cases h'

/-- Witness of C15: `initialize` on the emptied table (page count 0) and on the
table of 20 pages returns, and `setCurrentPage(25)` is in bounds afterwards. -/
theorem updatePages_at_in_bounds_witness :
    (∃ s, initializeNav sampleEmptied = some s ∧ ∃ s', setCurrentPage 25 s = some s') ∧
      ∃ s, initializeNav sampleTwentyPagesAt10 = some s ∧
        (s.m_PageBtnCount - 2).toNat ≤ (updatePages (storePage 25 s)).1.length := by
  obtain ⟨s, h, -, -, -, h5⟩ := updatePages_at_in_bounds sampleEmptied 25 (by decide)
  obtain ⟨t, ht, -, h3, -⟩ := updatePages_at_in_bounds sampleTwentyPagesAt10 25 (by decide)
  exact ⟨⟨s, h, h5⟩, t, ht, h3⟩

end PageTable
